import Mathlib

/-! # ESP32 Command Station: Outputs and Remote Sensors

A shallow embedding of `src/src/IO/Outputs.cpp` and
`src/main/IO/RemoteSensors.cpp`.

* The global `LinkedList<Output *> outputs` is a `List Output` threaded through
  every operation; `outputs.add` appends at the tail.
* The global `vector<unique_ptr<RemoteSensor>> remoteSensors` is a
  `List RemoteSensor`.
* The hardware and network primitives (`digitalWrite`, `pinMode`,
  `wifiInterface.broadcast`) are recorded, in call order, as a list of `Effect`s.
  `LOG` calls and the info screen are not recorded.
* Machine integers are `Nat`/`Int`; the conversions the C++ performs at a call or
  an assignment (`uint16_t x = std::stoi(..)`, `uint8_t` to `int8_t`) are explicit.
-/

namespace ESP32CS

/-! ## Effects -/

/-- One call of a side-effecting primitive. -/
inductive Effect where
  | digitalWrite (pin : Nat) (level : Bool)
  | pinMode (pin : Nat)
  | broadcast (text : String)
  deriving DecidableEq, Repr

/-- The `(pin, level)` pairs of the `digitalWrite` calls of a trace, in order. -/
def pinWrites : List Effect → List (Nat × Bool)
  | [] => []
  | Effect.digitalWrite pin level :: rest => (pin, level) :: pinWrites rest
  | _ :: rest => pinWrites rest

/-- The texts of the `wifiInterface.broadcast` calls of a trace, in order. -/
def broadcasts : List Effect → List String
  | [] => []
  | Effect.broadcast text :: rest => text :: broadcasts rest
  | _ :: rest => broadcasts rest

/-! ## Output -/

/-- The Arduino macro `bitRead(value, bit)`, `(((value) >> (bit)) & 0x01)`. -/
def bitRead (value bit : Nat) : Nat := (value >>> bit) &&& 1

/-- Modelled from the spec: the bit number of the invert flag, declared in the absent
`io/Outputs.h`; "bit0 = invert polarity" (and `IFLAG, bit 0` of the header comment of
`Outputs.cpp`). -/
def OUTPUT_IFLAG_INVERT : Nat := 0

/-- Modelled from the spec: the bit number of the restore flag, declared in the absent
`io/Outputs.h`; "bit1 = restore-on-power-up enabled" (`IFLAG, bit 1`). -/
def OUTPUT_IFLAG_RESTORE_STATE : Nat := 1

/-- Modelled from the spec: the bit number of the force flag, declared in the absent
`io/Outputs.h`; "bit2 = forced state when bit1 is set" (`IFLAG, bit 2`). -/
def OUTPUT_IFLAG_FORCE_STATE : Nat := 2

/-- Modelled from the spec: the default of the `announce` parameter of `Output::set`,
declared in the absent `io/Outputs.h`; a `set` that names no `announce` "already
announces". -/
def SET_ANNOUNCE_DEFAULT : Bool := true

/-- The fields `_id`, `_pin`, `_flags`, `_active` of `class Output`. -/
structure Output where
  id : Nat
  pin : Nat
  flags : Nat
  active : Bool
  deriving DecidableEq, Repr

/-- The `%d` rendering of a `bool` argument of `StringPrintf`. -/
def boolDigit (b : Bool) : String := if b then "1" else "0"

/-- `Output::set(bool active, bool announce)`: stores the state, writes it to the pin
with `digitalWrite(_pin, _active)` and, when `announce`, broadcasts
`<Y id !active>`. -/
def Output.set (o : Output) (active announce : Bool) : Output × List Effect :=
  let o1 : Output := { o with active := active }
  (o1, Effect.digitalWrite o1.pin o1.active ::
    (if announce then
      [Effect.broadcast ("<Y " ++ toString o1.id ++ " " ++ boolDigit (!o1.active) ++ ">")]
    else []))

/-- The constructor `Output::Output(uint16_t id, uint8_t pin, uint8_t flags)`. -/
def Output.create (id pin flags : Nat) : Output × List Effect :=
  let o : Output := { id := id, pin := pin, flags := flags, active := false }
  let r :=
    if bitRead o.flags OUTPUT_IFLAG_RESTORE_STATE ≠ 0 then
      if bitRead o.flags OUTPUT_IFLAG_FORCE_STATE ≠ 0 then o.set true false
      else o.set false false
    else o.set false false
  (r.1, r.2 ++ [Effect.pinMode r.1.pin])

/-- The method `Output::update(uint8_t pin, uint8_t flags)`. -/
def Output.update (o : Output) (pin flags : Nat) : Output × List Effect :=
  let o1 : Output := { o with pin := pin, flags := flags }
  let r :=
    if ¬ (bitRead o1.flags OUTPUT_IFLAG_RESTORE_STATE ≠ 0) then o1.set false false
    else if bitRead o1.flags OUTPUT_IFLAG_FORCE_STATE ≠ 0 then o1.set true false
    else o1.set false false
  (r.1, r.2 ++ [Effect.pinMode r.1.pin])

/-- The text `Output::showStatus` broadcasts, `<Y id pin flags !active>`. -/
def Output.showStatus (o : Output) : List Effect :=
  [Effect.broadcast ("<Y " ++ toString o.id ++ " " ++ toString o.pin ++ " " ++
    toString o.flags ++ " " ++ boolDigit (!o.active) ++ ">")]

/-! ## OutputManager -/

/-- What a registry operation returns, the registry it leaves and the primitives it
called. -/
structure Outcome (α : Type) where
  ret : α
  outputs : List Output
  effects : List Effect
  deriving DecidableEq, Repr

/-- The conversion of a `uint8_t` argument to the `int8_t` parameter of
`is_restricted_pin(int8_t)`. -/
def toInt8 (pin : Nat) : Int :=
  if pin % 256 < 128 then ((pin % 256 : Nat) : Int) else ((pin % 256 : Nat) : Int) - 256

/-- The conversion of an `int` to `uint16_t`. -/
def toUInt16 (n : Int) : Nat := (n % 65536).toNat

/-- The conversion of an `int` to `uint8_t`. -/
def toUInt8 (n : Int) : Nat := (n % 256).toNat

namespace OutputManager

/-- `OutputManager::set(uint16_t id, bool active)`: the first Output with the id is set
(with the default `announce`). -/
def set : List Output → Nat → Bool → Outcome Bool
  | [], _, _ => ⟨false, [], []⟩
  | o :: rest, id, active =>
    if o.id = id then
      ⟨true, (o.set active SET_ANNOUNCE_DEFAULT).1 :: rest, (o.set active SET_ANNOUNCE_DEFAULT).2⟩
    else
      ⟨(set rest id active).ret, o :: (set rest id active).outputs, (set rest id active).effects⟩

/-- `OutputManager::getOutput(uint16_t id)`: the first Output with the id, `none` for
`nullptr`. -/
def getOutput : List Output → Nat → Option Output
  | [], _ => none
  | o :: rest, id => if o.id = id then some o else getOutput rest id

/-- `OutputManager::toggle(uint16_t id)`: the first Output with the id is set to the
negation of its state. -/
def toggle : List Output → Nat → Outcome Bool
  | [], _ => ⟨false, [], []⟩
  | o :: rest, id =>
    if o.id = id then
      ⟨true, (o.set (!o.active) SET_ANNOUNCE_DEFAULT).1 :: rest,
        (o.set (!o.active) SET_ANNOUNCE_DEFAULT).2⟩
    else
      ⟨(toggle rest id).ret, o :: (toggle rest id).outputs, (toggle rest id).effects⟩

/-- `OutputManager::showStatus()`. -/
def showStatus (outputs : List Output) : List Effect :=
  (outputs.map Output.showStatus).flatten

/-- The scan loop of `OutputManager::createOrUpdate`: the registry and trace after
`update` on the first Output with the id, `none` when the loop finds none. -/
def updateExisting : List Output → Nat → Nat → Nat → Option (List Output × List Effect)
  | [], _, _, _ => none
  | o :: rest, id, pin, flags =>
    if o.id = id then some ((o.update pin flags).1 :: rest, (o.update pin flags).2)
    else (updateExisting rest id pin flags).map (fun r => (o :: r.1, r.2))

/-- `OutputManager::createOrUpdate(id, pin, flags)`; `is_restricted_pin` is declared in
`ESP32CommandStation.h` and defined elsewhere, so it is a parameter. -/
def createOrUpdate (is_restricted_pin : Int → Bool) (outputs : List Output)
    (id pin flags : Nat) : Outcome Bool :=
  match updateExisting outputs id pin flags with
  | some r => ⟨true, r.1, r.2⟩
  | none =>
    if is_restricted_pin (toInt8 pin) then ⟨false, outputs, []⟩
    else ⟨true, outputs ++ [(Output.create id pin flags).1], (Output.create id pin flags).2⟩

/-- The loop of `OutputManager::remove`: `outputToRemove` after the scan, as the
position of the Output it points to (the loop does not stop at the first match). -/
def removeScan : List Output → Nat → Nat → Option Nat → Option Nat
  | [], _, _, found => found
  | o :: rest, id, pos, found =>
    removeScan rest id (pos + 1) (if o.id = id then some pos else found)

/-- `OutputManager::remove(const uint16_t id)`. -/
def remove (outputs : List Output) (id : Nat) : Outcome Bool :=
  match removeScan outputs id 0 none with
  | some pos => ⟨true, outputs.eraseIdx pos, []⟩
  | none => ⟨false, outputs, []⟩

/-- The position of the Output the pointer `OutputManager::getOutput(id)` designates:
the first one with the id. -/
def getOutputPos : List Output → Nat → Option Nat
  | [], _ => none
  | o :: rest, id => if o.id = id then some 0 else (getOutputPos rest id).map (· + 1)

end OutputManager

/-! ## Persistence

The JSON library and the configuration store are external. A document is a
`JsonVariant`; the configuration store is the content of the one file
`outputs.json`, `none` while the file does not exist. -/

/-- A JSON value as the code reads and writes it. -/
inductive JsonVariant where
  | null
  | number (n : Int)
  | boolean (b : Bool)
  | array (items : List JsonVariant)
  | object (members : List (String × JsonVariant))

namespace JsonVariant

/-- `json[key]`: the member of an object, null when there is none or for a value
that is no object. -/
def member (v : JsonVariant) (key : String) : JsonVariant :=
  match v with
  | object members =>
    match members.lookup key with
    | some x => x
    | none => null
  | _ => null

/-- `json.containsKey(key)`. -/
def containsKey (v : JsonVariant) (key : String) : Bool :=
  match v with
  | object members => (members.lookup key).isSome
  | _ => false

/-- `json[key] = value`: replaces the member with the key or appends one. -/
def setMember (v : JsonVariant) (key : String) (value : JsonVariant) : JsonVariant :=
  match v with
  | object members =>
    if (members.lookup key).isSome then
      object (members.map (fun m => if m.1 == key then (key, value) else m))
    else object (members ++ [(key, value)])
  | other => other

/-- `variant.as<int>()`: 0 for a value that is no number. -/
def asInt : JsonVariant → Int
  | number n => n
  | boolean b => if b then 1 else 0
  | _ => 0

/-- `variant.as<bool>()`: false for null. -/
def asBool : JsonVariant → Bool
  | boolean b => b
  | number n => decide (n ≠ 0)
  | _ => false

/-- `variant.as<JsonArray>()`: the elements, none for a value that is no array. -/
def asArray : JsonVariant → List JsonVariant
  | array items => items
  | _ => []

end JsonVariant

/-- The member names of the persisted document, declared in the absent
`JsonConstants.h`. -/
structure JsonKeys where
  JSON_COUNT_NODE : String
  JSON_OUTPUTS_NODE : String
  JSON_ID_NODE : String
  JSON_PIN_NODE : String
  JSON_FLAGS_NODE : String
  JSON_STATE_NODE : String

/-- Modelled from the spec: the member names of the absent `JsonConstants.h`; "a root
object with a count field and an array of per-Output objects `{id, pin, flags,
state}`". -/
def jsonKeys : JsonKeys :=
  { JSON_COUNT_NODE := "count", JSON_OUTPUTS_NODE := "outputs", JSON_ID_NODE := "id",
    JSON_PIN_NODE := "pin", JSON_FLAGS_NODE := "flags", JSON_STATE_NODE := "state" }

/-- The constant `OUTPUTS_JSON_FILE` of `Outputs.cpp`. -/
def OUTPUTS_JSON_FILE : String := "outputs.json"

/-- `Output::toJson(json, readableStrings)` for `readableStrings = false`, the call
`store` makes: the four members of a persisted Output. -/
def Output.toJson (keys : JsonKeys) (o : Output) : JsonVariant :=
  ((((JsonVariant.object []).setMember keys.JSON_ID_NODE (JsonVariant.number o.id)).setMember
    keys.JSON_PIN_NODE (JsonVariant.number o.pin)).setMember
    keys.JSON_FLAGS_NODE (JsonVariant.number o.flags)).setMember
    keys.JSON_STATE_NODE (JsonVariant.boolean o.active)

/-- The constructor `Output::Output(JsonObject json)`; the members are converted to
`uint16_t`, `uint8_t`, `uint8_t` (every number `store` writes fits its type). -/
def Output.load (keys : JsonKeys) (json : JsonVariant) : Output × List Effect :=
  let o : Output :=
    { id := toUInt16 (json.member keys.JSON_ID_NODE).asInt,
      pin := toUInt8 (json.member keys.JSON_PIN_NODE).asInt,
      flags := toUInt8 (json.member keys.JSON_FLAGS_NODE).asInt,
      active := false }
  let r :=
    if bitRead o.flags OUTPUT_IFLAG_RESTORE_STATE ≠ 0 then
      if bitRead o.flags OUTPUT_IFLAG_FORCE_STATE ≠ 0 then o.set true false
      else o.set false false
    else
      if (json.member keys.JSON_STATE_NODE).asBool then o.set true false
      else o.set false false
  (r.1, r.2 ++ [Effect.pinMode r.1.pin])

/-- `OutputManager::store()`: the count it returns (a `uint16_t`) and the document it
hands to `configStore->store(OUTPUTS_JSON_FILE, root)`. -/
def OutputManager.store (keys : JsonKeys) (outputs : List Output) : Nat × JsonVariant :=
  let root := (JsonVariant.object []).setMember keys.JSON_OUTPUTS_NODE
    (JsonVariant.array (outputs.map (Output.toJson keys)))
  let outputStoredCount := outputs.length % 65536
  (outputStoredCount, root.setMember keys.JSON_COUNT_NODE (JsonVariant.number outputStoredCount))

/-- `OutputManager::init()` against the content of `outputs.json`. -/
def OutputManager.init (keys : JsonKeys) (configStore : Option JsonVariant)
    (outputs : List Output) : Outcome Unit :=
  match configStore with
  | none => ⟨(), outputs, []⟩
  | some root =>
    if root.containsKey OUTPUTS_JSON_FILE ∧ (root.member OUTPUTS_JSON_FILE).asInt > 0 then
      ⟨(), outputs ++ ((root.member keys.JSON_OUTPUTS_NODE).asArray.map (Output.load keys)).map
          Prod.fst,
        (((root.member keys.JSON_OUTPUTS_NODE).asArray.map (Output.load keys)).map
          Prod.snd).flatten⟩
    else ⟨(), outputs, []⟩


/-! ## Command adapters -/

/-- Modelled from the spec: the success response, declared in an absent header;
"`<O>` success" (and `returns: <O> if successful` of the header comment). -/
def COMMAND_SUCCESSFUL_RESPONSE : String := "<O>"

/-- Modelled from the spec: the failure response, declared in an absent header;
"`<X>` failure" (and `<X> if unsuccessful` of the header comment). -/
def COMMAND_FAILED_RESPONSE : String := "<X>"

/-- The C `isspace` of the default locale. -/
def isspace (c : Char) : Bool := c.toNat = 32 || (9 ≤ c.toNat && c.toNat ≤ 13)

/-- The value of a run of decimal digits. -/
def digitsValue (ds : List Char) : Nat :=
  ds.foldl (fun acc c => 10 * acc + (c.toNat - 48)) 0

/-- The standard library `std::stoi(str)` (base 10, 32-bit `int`): leading white space,
an optional sign and the longest run of digits; `none` when it throws
(`invalid_argument` for no digit, `out_of_range` for a value no `int` holds). -/
def stoi (str : String) : Option Int :=
  let body := str.data.dropWhile isspace
  let negative := body.head? = some '-'
  let unsigned := if body.head? = some '-' ∨ body.head? = some '+' then body.tail else body
  let digits := unsigned.takeWhile Char.isDigit
  if digits.isEmpty then none
  else
    let value : Int := if negative then -(digitsValue digits : Int) else (digitsValue digits : Int)
    if value < -2147483648 ∨ 2147483647 < value then none else some value

/-- The `char` `str[0]` as a number: the first character of the token, 0 (the
terminator) for the empty token. For a character outside ASCII this is its code
point where C++ has the first byte of its encoding; both are above 127. -/
def firstChar (str : String) : Nat :=
  match str.data with
  | [] => 0
  | c :: _ => c.toNat

/-- `OutputCommandAdapter::process(arguments)`; `none` when a `std::stoi` throws. The
`&&` chain is kept: `remove` runs only for one token, `set` only for two. -/
def OutputCommandAdapter.process (is_restricted_pin : Int → Bool) (outputs : List Output)
    (arguments : List String) : Option (Outcome Unit) :=
  if arguments.isEmpty then
    some ⟨(), outputs, OutputManager.showStatus outputs⟩
  else
    match stoi (arguments.getD 0 "") with
    | none => none
    | some n =>
      let outputID := toUInt16 n
      let removed : Outcome Bool :=
        if arguments.length = 1 then OutputManager.remove outputs outputID
        else ⟨false, outputs, []⟩
      if removed.ret then
        some ⟨(), removed.outputs,
          removed.effects ++ [Effect.broadcast COMMAND_SUCCESSFUL_RESPONSE]⟩
      else
        let changed : Outcome Bool :=
          if arguments.length = 2 then
            OutputManager.set removed.outputs outputID
              (decide (firstChar (arguments.getD 1 "") = 1))
          else ⟨false, removed.outputs, []⟩
        if changed.ret then
          some ⟨(), changed.outputs, removed.effects ++ changed.effects⟩
        else if arguments.length = 3 then
          match stoi (arguments.getD 1 ""), stoi (arguments.getD 2 "") with
          | some pin, some flags =>
            let created := OutputManager.createOrUpdate is_restricted_pin changed.outputs
              outputID (toUInt8 pin) (toUInt8 flags)
            some ⟨(), created.outputs,
              removed.effects ++ changed.effects ++ created.effects ++
                [Effect.broadcast COMMAND_SUCCESSFUL_RESPONSE]⟩
          | _, _ => none
        else
          some ⟨(), changed.outputs,
            removed.effects ++ changed.effects ++ [Effect.broadcast COMMAND_FAILED_RESPONSE]⟩

/-- `OutputExCommandAdapter::process(arguments)`; `none` when `std::stoi` throws. -/
def OutputExCommandAdapter.process (outputs : List Output) (arguments : List String) :
    Option (Outcome Unit) :=
  if arguments.isEmpty then
    some ⟨(), outputs, [Effect.broadcast COMMAND_FAILED_RESPONSE]⟩
  else
    match stoi (arguments.getD 0 "") with
    | none => none
    | some n =>
      match OutputManager.getOutputPos outputs (toUInt16 n) with
      | some pos =>
        match outputs.get? pos with
        | some o =>
          some ⟨(), outputs.set pos (o.set (!o.active) SET_ANNOUNCE_DEFAULT).1,
            (o.set (!o.active) SET_ANNOUNCE_DEFAULT).2⟩
        | none => some ⟨(), outputs, [Effect.broadcast COMMAND_FAILED_RESPONSE]⟩
      | none => some ⟨(), outputs, [Effect.broadcast COMMAND_FAILED_RESPONSE]⟩

/-! ## Remote sensors

`class Sensor` and the declaration of `class RemoteSensor` are in absent headers.
The clock `esp_timer_get_time()` is an argument, `micros`, in microseconds. The
width of `_lastUpdate` is declared there too; times are unbounded naturals here. -/

/-- The state of a `RemoteSensor`: the `Sensor` id and state (`getID()`,
`isActive()`), and `_rawID`, `_value`, `_lastUpdate`. The pin and pull-up of the
`Sensor` base are constants no operation below reads. -/
structure RemoteSensor where
  id : Nat
  rawID : Nat
  value : Nat
  active : Bool
  lastUpdate : Nat
  deriving DecidableEq, Repr

/-- Modelled from the spec: `RemoteSensor::setSensorValue`, defined in the absent
`io/RemoteSensors.h`; "`value: u16` — last reported raw value; `active = (value != 0)`",
"`lastUpdate` — monotonic time of last report, in milliseconds", "value + timestamp
refreshed". -/
def RemoteSensor.setSensorValue (micros : Nat) (s : RemoteSensor) (value : Nat) :
    RemoteSensor :=
  { s with value := value, lastUpdate := micros / 1000, active := decide (value ≠ 0) }

/-- Modelled from the spec: the conversion of the argument of the `Sensor` constructor
to the type of the `Sensor` id, declared in the absent `io/Sensors.h`; "`id: u16` —
internal sensor id". -/
def toSensorID (n : Nat) : Nat := n % 65536

/-- The constructor `RemoteSensor::RemoteSensor(uint16_t id, uint16_t value)`: the
`Sensor` base is built with the id `id + CONFIG_REMOTE_SENSORS_FIRST_SENSOR` and is
inactive, `_rawID` is `id`, then `setSensorValue(value)`. -/
def RemoteSensor.create (CONFIG_REMOTE_SENSORS_FIRST_SENSOR micros : Nat) (id value : Nat) :
    RemoteSensor :=
  RemoteSensor.setSensorValue micros
    { id := toSensorID (id + CONFIG_REMOTE_SENSORS_FIRST_SENSOR), rawID := id, value := 0,
      active := false, lastUpdate := 0 }
    value

/-- `RemoteSensor::check()`. -/
def RemoteSensor.check (CONFIG_REMOTE_SENSORS_DECAY micros : Nat) (s : RemoteSensor) :
    RemoteSensor :=
  if s.active ∧ micros / 1000 > s.lastUpdate + CONFIG_REMOTE_SENSORS_DECAY then
    RemoteSensor.setSensorValue micros s 0
  else s

/-- `RemoteSensor::get_state_for_dccpp()`, `<RS rawID value>`. -/
def RemoteSensor.get_state_for_dccpp (s : RemoteSensor) : String :=
  "<RS " ++ toString s.rawID ++ " " ++ toString s.value ++ ">"

namespace RemoteSensorManager

/-- `RemoteSensorManager::createOrUpdate(const uint16_t id, const uint16_t value)`. -/
def createOrUpdate (CONFIG_REMOTE_SENSORS_FIRST_SENSOR micros : Nat) :
    List RemoteSensor → Nat → Nat → List RemoteSensor
  | [], id, value => [RemoteSensor.create CONFIG_REMOTE_SENSORS_FIRST_SENSOR micros id value]
  | s :: rest, id, value =>
    if s.rawID = id then RemoteSensor.setSensorValue micros s value :: rest
    else s :: createOrUpdate CONFIG_REMOTE_SENSORS_FIRST_SENSOR micros rest id value

/-- The `std::find_if` of `RemoteSensorManager::remove`: the position of the first
sensor with `getID() == id`, `none` for `end()`. -/
def findByID : List RemoteSensor → Nat → Option Nat
  | [], _ => none
  | s :: rest, id => if s.id = id then some 0 else (findByID rest id).map (· + 1)

/-- `RemoteSensorManager::remove(const uint16_t id)`: the result and the registry. -/
def remove (remoteSensors : List RemoteSensor) (id : Nat) : Bool × List RemoteSensor :=
  match findByID remoteSensors id with
  | some pos => (true, remoteSensors.eraseIdx pos)
  | none => (false, remoteSensors)

/-- `RemoteSensorManager::getStateAsJson()`; `toJson` is the text
`RemoteSensor::toJson` dumps for a sensor (the JSON library is external). -/
def getStateAsJson (toJson : RemoteSensor → String) (remoteSensors : List RemoteSensor) :
    String :=
  remoteSensors.foldl (fun output s => output ++ toJson s ++ ",") "[" ++ "]"

/-- `RemoteSensorManager::get_state_for_dccpp()`. -/
def get_state_for_dccpp (remoteSensors : List RemoteSensor) : String :=
  if remoteSensors.isEmpty then COMMAND_FAILED_RESPONSE
  else remoteSensors.foldl (fun status s => status ++ s.get_state_for_dccpp) ""

/-- Modelled from the spec: the Decay Monitor, whose code is absent; "invoked
periodically ... over every RemoteSensor": one `check()` on every entry. -/
def decaySweep (CONFIG_REMOTE_SENSORS_DECAY micros : Nat)
    (remoteSensors : List RemoteSensor) : List RemoteSensor :=
  remoteSensors.map (RemoteSensor.check CONFIG_REMOTE_SENSORS_DECAY micros)

end RemoteSensorManager

/-! ## Call sequences

A finite sequence of calls with arbitrary arguments, for the invariants that hold
"after any sequence of calls". -/

/-- One call of a state-changing operation of `OutputManager`, with its arguments. -/
inductive OutputCall where
  | createOrUpdate (id pin flags : Nat)
  | remove (id : Nat)
  | set (id : Nat) (active : Bool)
  | toggle (id : Nat)

/-- The Output registry after one call. -/
def OutputCall.run (is_restricted_pin : Int → Bool) (outputs : List Output) :
    OutputCall → List Output
  | OutputCall.createOrUpdate id pin flags =>
    (OutputManager.createOrUpdate is_restricted_pin outputs id pin flags).outputs
  | OutputCall.remove id => (OutputManager.remove outputs id).outputs
  | OutputCall.set id active => (OutputManager.set outputs id active).outputs
  | OutputCall.toggle id => (OutputManager.toggle outputs id).outputs

/-- The Output registry after a sequence of calls, the first call first. -/
def runOutputCalls (is_restricted_pin : Int → Bool) (outputs : List Output)
    (calls : List OutputCall) : List Output :=
  calls.foldl (OutputCall.run is_restricted_pin) outputs

/-- One call on the RemoteSensor registry, with its arguments and the clock reading
(in microseconds) at the call. -/
inductive SensorCall where
  | createOrUpdate (micros rawId value : Nat)
  | remove (id : Nat)
  | decaySweep (micros : Nat)

/-- The RemoteSensor registry after one call. -/
def SensorCall.run (CONFIG_REMOTE_SENSORS_FIRST_SENSOR CONFIG_REMOTE_SENSORS_DECAY : Nat)
    (remoteSensors : List RemoteSensor) : SensorCall → List RemoteSensor
  | SensorCall.createOrUpdate micros rawId value =>
    RemoteSensorManager.createOrUpdate CONFIG_REMOTE_SENSORS_FIRST_SENSOR micros
      remoteSensors rawId value
  | SensorCall.remove id => (RemoteSensorManager.remove remoteSensors id).2
  | SensorCall.decaySweep micros =>
    RemoteSensorManager.decaySweep CONFIG_REMOTE_SENSORS_DECAY micros remoteSensors

open OutputManager

theorem bitRead_ne_zero_iff (value bit : Nat) :
    bitRead value bit ≠ 0 ↔ value.testBit bit = true := by
  simp [bitRead, Nat.testBit, Nat.and_comm]

theorem Output.set_fst (o : Output) (active announce : Bool) :
    (o.set active announce).1 = { o with active := active } := rfl

theorem Output.update_fst (o : Output) (pin flags : Nat) :
    (o.update pin flags).1 =
      { id := o.id, pin := pin, flags := flags,
        active := flags.testBit 1 && flags.testBit 2 } := by
  unfold Output.update
  simp only [bitRead_ne_zero_iff, OUTPUT_IFLAG_RESTORE_STATE, OUTPUT_IFLAG_FORCE_STATE]
  by_cases h1 : flags.testBit 1 = true <;> by_cases h2 : flags.testBit 2 = true <;>
    simp [h1, h2, Output.set]

theorem Output.create_fst (id pin flags : Nat) :
    (Output.create id pin flags).1 =
      { id := id, pin := pin, flags := flags,
        active := flags.testBit 1 && flags.testBit 2 } := by
  unfold Output.create
  simp only [bitRead_ne_zero_iff, OUTPUT_IFLAG_RESTORE_STATE, OUTPUT_IFLAG_FORCE_STATE]
  by_cases h1 : flags.testBit 1 = true <;> by_cases h2 : flags.testBit 2 = true <;>
    simp [h1, h2, Output.set]

theorem getOutput_eq_none_iff (R : List Output) (id : Nat) :
    getOutput R id = none ↔ ∀ o ∈ R, o.id ≠ id := by
  induction R with
  | nil => simp [getOutput]
  | cons o rest ih =>
    by_cases h : o.id = id
    · simp [getOutput, h]
    · simp [getOutput, h, ih]

theorem updateExisting_eq_none_iff (R : List Output) (id pin flags : Nat) :
    updateExisting R id pin flags = none ↔ getOutput R id = none := by
  induction R with
  | nil => simp [updateExisting, getOutput]
  | cons o rest ih =>
    by_cases h : o.id = id
    · simp [updateExisting, getOutput, h]
    · simp [updateExisting, getOutput, h, ih]

theorem getOutput_updateExisting (R : List Output) (id pin flags : Nat)
    (r : List Output × List Effect) (h : updateExisting R id pin flags = some r) :
    ∃ o, getOutput R id = some o ∧ getOutput r.1 id = some (o.update pin flags).1 := by
  induction R generalizing r with
  | nil => simp [updateExisting] at h
  | cons o rest ih =>
    by_cases hid : o.id = id
    · simp only [updateExisting, hid, if_true, Option.some.injEq] at h
      subst h
      refine ⟨o, by simp [getOutput, hid], ?_⟩
      simp [getOutput, Output.update_fst, hid]
    · simp only [updateExisting, hid, if_false, Option.map_eq_some'] at h
      obtain ⟨r0, hr0, rfl⟩ := h
      obtain ⟨o0, h1, h2⟩ := ih r0 hr0
      exact ⟨o0, by simp [getOutput, hid, h1], by simp [getOutput, hid, h2]⟩

theorem getOutput_append_new (R : List Output) (id : Nat) (o : Output)
    (h : getOutput R id = none) (hid : o.id = id) : getOutput (R ++ [o]) id = some o := by
  induction R with
  | nil => simp [getOutput, hid]
  | cons a rest ih =>
    by_cases ha : a.id = id
    · simp [getOutput, ha] at h
    · simp only [getOutput, ha, if_false] at h
      simp [getOutput, ha, ih h]

/-- C1: for every Output registry, every id, every pin that is not restricted and every
flags byte, `createOrUpdate(id, pin, flags)` returns true and `getOutput(id)` then
yields an Output with that id, pin and flags, active exactly when flags bit1 and bit2
are both set, whether or not the id existed before. -/
theorem createOrUpdate_then_getOutput (is_restricted_pin : Int → Bool) (R : List Output)
    (id pin flags : Nat) (hpin : is_restricted_pin (toInt8 pin) = false) :
    (createOrUpdate is_restricted_pin R id pin flags).ret = true ∧
    ∃ o, getOutput (createOrUpdate is_restricted_pin R id pin flags).outputs id = some o ∧
      o.id = id ∧ o.pin = pin ∧ o.flags = flags ∧
      (o.active = true ↔ (flags.testBit 1 = true ∧ flags.testBit 2 = true)) := by
  unfold createOrUpdate
  cases hu : updateExisting R id pin flags with
  | none =>
    have hn := (updateExisting_eq_none_iff R id pin flags).1 hu
    simp only [hpin]
    refine ⟨by simp, (Output.create id pin flags).1, ?_, ?_⟩
    · exact getOutput_append_new R id _ hn (by simp [Output.create_fst])
    · simp [Output.create_fst]
  | some r =>
    obtain ⟨o, ho, hr⟩ := getOutput_updateExisting R id pin flags r hu
    have hoid : o.id = id := by
      clear hr hu
      induction R with
      | nil => simp [getOutput] at ho
      | cons a rest ih =>
        by_cases ha : a.id = id
        · simp [getOutput, ha] at ho; subst ho; exact ha
        · simp only [getOutput, ha, if_false] at ho; exact ih ho
    refine ⟨rfl, (o.update pin flags).1, hr, ?_⟩
    simp [Output.update_fst, hoid]

/-- C1 at `(id=3, pin=12, flags=0b011)` on the empty registry with no pin restricted:
the Output is created inactive. -/
theorem createOrUpdate_then_getOutput_witness :
    ((fun _ => false : Int → Bool) (toInt8 12) = false) ∧
    ((createOrUpdate (fun _ => false) [] 3 12 3).ret = true ∧
      ∃ o, getOutput (createOrUpdate (fun _ => false) [] 3 12 3).outputs 3 = some o ∧
        o.id = 3 ∧ o.pin = 12 ∧ o.flags = 3 ∧
        (o.active = true ↔ (Nat.testBit 3 1 = true ∧ Nat.testBit 3 2 = true))) ∧
    getOutput (createOrUpdate (fun _ => false) [] 3 12 3).outputs 3 =
      some { id := 3, pin := 12, flags := 3, active := false } :=
  ⟨rfl, createOrUpdate_then_getOutput (fun _ => false) [] 3 12 3 rfl, by decide⟩

theorem getOutput_id (R : List Output) (id : Nat) (o : Output)
    (h : getOutput R id = some o) : o.id = id := by
  induction R with
  | nil => simp [getOutput] at h
  | cons a rest ih =>
    by_cases ha : a.id = id
    · simp [getOutput, ha] at h; subst h; exact ha
    · simp only [getOutput, ha, if_false] at h; exact ih h

theorem toggle_of_getOutput (R : List Output) (id : Nat) (o : Output)
    (h : getOutput R id = some o) :
    (toggle R id).ret = true ∧
    (toggle R id).effects = (o.set (!o.active) SET_ANNOUNCE_DEFAULT).2 ∧
    getOutput (toggle R id).outputs id = some { o with active := !o.active } := by
  induction R with
  | nil => simp [getOutput] at h
  | cons a rest ih =>
    by_cases ha : a.id = id
    · simp [getOutput, ha] at h
      subst h
      simp [toggle, getOutput, ha, Output.set]
    · simp only [getOutput, ha, if_false] at h
      simp [toggle, getOutput, ha, ih h]

theorem toggle_toggle_outputs (R : List Output) (id : Nat) :
    (toggle (toggle R id).outputs id).outputs = R := by
  induction R with
  | nil => simp [toggle]
  | cons a rest ih =>
    by_cases ha : a.id = id
    · cases a
      simp only at ha
      subst ha
      simp [toggle, Output.set]
    · simp [toggle, ha, ih]

/-- C5: for every id present in the registry, two successive `toggle(id)` calls both
return true and restore the Output (its active value, and the whole registry); each
toggle writes the pin once, the second writes the level `Output::set` writes for the
original state, and that is the opposite of the level the first wrote. -/
theorem toggle_twice_restores (R : List Output) (id : Nat) (o : Output)
    (h : getOutput R id = some o) :
    (toggle R id).ret = true ∧
    (toggle (toggle R id).outputs id).ret = true ∧
    (getOutput (toggle (toggle R id).outputs id).outputs id).map Output.active =
      some o.active ∧
    (toggle (toggle R id).outputs id).outputs = R ∧
    pinWrites (toggle (toggle R id).outputs id).effects =
      pinWrites (o.set o.active SET_ANNOUNCE_DEFAULT).2 ∧
    ∃ level, pinWrites (toggle (toggle R id).outputs id).effects = [(o.pin, level)] ∧
      pinWrites (toggle R id).effects = [(o.pin, !level)] := by
  obtain ⟨h1, h2, h3⟩ := toggle_of_getOutput R id o h
  obtain ⟨h4, h5, _⟩ := toggle_of_getOutput (toggle R id).outputs id _ h3
  have hback := toggle_toggle_outputs R id
  refine ⟨h1, h4, ?_, hback, ?_, o.active, ?_, ?_⟩
  · rw [hback, h]; rfl
  · rw [h5]; simp [Output.set, pinWrites, SET_ANNOUNCE_DEFAULT]
  · rw [h5]; simp [Output.set, pinWrites, SET_ANNOUNCE_DEFAULT]
  · rw [h2]; simp [Output.set, pinWrites, SET_ANNOUNCE_DEFAULT]

/-- C5 on a registry of two Outputs, toggling the inverted, active Output 7. -/
theorem toggle_twice_restores_witness :
    getOutput [{ id := 3, pin := 12, flags := 0, active := false },
        { id := 7, pin := 13, flags := 1, active := true }] 7 =
      some { id := 7, pin := 13, flags := 1, active := true } ∧
    (toggle (toggle [{ id := 3, pin := 12, flags := 0, active := false },
        { id := 7, pin := 13, flags := 1, active := true }] 7).outputs 7).outputs =
      [{ id := 3, pin := 12, flags := 0, active := false },
        { id := 7, pin := 13, flags := 1, active := true }] ∧
    pinWrites (toggle [{ id := 3, pin := 12, flags := 0, active := false },
        { id := 7, pin := 13, flags := 1, active := true }] 7).effects = [(13, false)] :=
  ⟨by decide,
    (toggle_twice_restores [{ id := 3, pin := 12, flags := 0, active := false },
        { id := 7, pin := 13, flags := 1, active := true }] 7
      { id := 7, pin := 13, flags := 1, active := true } (by decide)).2.2.2.1,
    by decide⟩

/-- C9: `createOrUpdate(id, pin, flags)` returns false if and only if no Output has
the id and `is_restricted_pin(pin)` holds; when it returns false the registry is
unchanged (and no primitive was called); when the id exists the update is accepted
whatever the pin: it returns true and the Output has the new pin and flags. -/
theorem createOrUpdate_false_iff (is_restricted_pin : Int → Bool) (R : List Output)
    (id pin flags : Nat) :
    ((createOrUpdate is_restricted_pin R id pin flags).ret = false ↔
      ((∀ o ∈ R, o.id ≠ id) ∧ is_restricted_pin (toInt8 pin) = true)) ∧
    ((createOrUpdate is_restricted_pin R id pin flags).ret = false →
      (createOrUpdate is_restricted_pin R id pin flags).outputs = R ∧
      (createOrUpdate is_restricted_pin R id pin flags).effects = []) ∧
    (∀ o, getOutput R id = some o →
      (createOrUpdate is_restricted_pin R id pin flags).ret = true ∧
      ∃ u, getOutput (createOrUpdate is_restricted_pin R id pin flags).outputs id = some u ∧
        u.id = id ∧ u.pin = pin ∧ u.flags = flags) := by
  unfold createOrUpdate
  cases hu : updateExisting R id pin flags with
  | none =>
    have hn := (updateExisting_eq_none_iff R id pin flags).1 hu
    have hall := (getOutput_eq_none_iff R id).1 hn
    refine ⟨?_, ?_, ?_⟩
    · cases hp : is_restricted_pin (toInt8 pin)
      · simp
      · simpa using hall
    · cases hp : is_restricted_pin (toInt8 pin) <;> simp
    · intro o ho; rw [hn] at ho; cases ho
  | some r =>
    obtain ⟨o, ho, hr⟩ := getOutput_updateExisting R id pin flags r hu
    have hoid := getOutput_id R id o ho
    refine ⟨?_, ?_, ?_⟩
    · simp only [Bool.true_eq_false, false_iff, not_and]
      intro hall
      have := (getOutput_eq_none_iff R id).2 hall
      rw [this] at ho; cases ho
    · intro hf; cases hf
    · intro _ _
      exact ⟨rfl, (o.update pin flags).1, hr, by simp [Output.update_fst, hoid]⟩

/-! ## The pin level, the STATE token, the create response -/

/-- `Output::set` writes the logical state to the pin, whatever the flags are. -/
theorem Output.set_pinWrites (o : Output) (active announce : Bool) :
    pinWrites (o.set active announce).2 = [(o.pin, active)] := by
  cases announce <;> simp [Output.set, pinWrites]

/-- C3 (the code at the failing input): setting the inverted Output (flags bit0 set)
on pin 12 ACTIVE drives the pin HIGH, where ACTIVE is LOW for an inverted Output. -/
theorem set_inverted_output_writes_high :
    bitRead 1 OUTPUT_IFLAG_INVERT = 1 ∧
    (Output.set { id := 1, pin := 12, flags := 1, active := false } true
        SET_ANNOUNCE_DEFAULT).1.active = true ∧
    pinWrites (Output.set { id := 1, pin := 12, flags := 1, active := false } true
        SET_ANNOUNCE_DEFAULT).2 = [(12, true)] ∧
    pinWrites (OutputManager.set [{ id := 1, pin := 12, flags := 1, active := false }] 1 true).effects =
      [(12, true)] := by
  decide

/-- C4 (the code at the failing input): the command `[5, "1"]` on a registry whose
Output 5 is ACTIVE leaves it INACTIVE: `arguments[1][0] == 1` compares the character
`1` (code 49) with the number 1, so `set` is handed false. -/
theorem process_state_token_one_sets_inactive :
    firstChar "1" = 49 ∧
    OutputCommandAdapter.process (fun _ => false)
        [{ id := 5, pin := 12, flags := 0, active := true }] ["5", "1"] =
      some { ret := (), outputs := [{ id := 5, pin := 12, flags := 0, active := false }],
             effects := [Effect.digitalWrite 12 false, Effect.broadcast "<Y 5 1>"] } := by
  decide

/-- C10 (the code at the failing input): with GPIO 6 restricted, the three-token
command `[1, 6, 0]` on the empty registry, whose `createOrUpdate` returns false,
broadcasts the success response `<O>` and no `<X>`. -/
theorem process_failed_create_broadcasts_success :
    (createOrUpdate (fun pin => decide (pin = 6)) [] 1 6 0).ret = false ∧
    OutputCommandAdapter.process (fun pin => decide (pin = 6)) [] ["1", "6", "0"] =
      some { ret := (), outputs := [], effects := [Effect.broadcast "<O>"] } := by
  decide

/-! ## Persistence round trip -/

/-- Whatever the registry, `init` finds no member named `outputs.json` in the document
`store` wrote (unless the count member itself has that name) and loads nothing. -/
theorem init_after_store_loads_nothing (keys : JsonKeys) (R : List Output)
    (h : keys.JSON_COUNT_NODE ≠ OUTPUTS_JSON_FILE) :
    OutputManager.init keys (some (OutputManager.store keys R).2) [] =
      { ret := (), outputs := [], effects := [] } := by
  have h1 : (keys.JSON_COUNT_NODE == OUTPUTS_JSON_FILE) = false := by simpa using h
  have h2 : (OUTPUTS_JSON_FILE == keys.JSON_COUNT_NODE) = false := by
    simpa using fun e => h e.symm
  unfold OutputManager.init OutputManager.store
  by_cases hco : keys.JSON_COUNT_NODE = keys.JSON_OUTPUTS_NODE
  · have h3 : (OUTPUTS_JSON_FILE == keys.JSON_OUTPUTS_NODE) = false := by rw [← hco]; exact h2
    simp [JsonVariant.setMember, JsonVariant.containsKey, JsonVariant.member, List.lookup,
      hco, h3]
  · have h4 : (keys.JSON_COUNT_NODE == keys.JSON_OUTPUTS_NODE) = false := by simpa using hco
    by_cases hfo : OUTPUTS_JSON_FILE = keys.JSON_OUTPUTS_NODE
    · simp [JsonVariant.setMember, JsonVariant.containsKey, JsonVariant.member, List.lookup,
        h4, hfo, JsonVariant.asInt]
    · have h5 : (OUTPUTS_JSON_FILE == keys.JSON_OUTPUTS_NODE) = false := by simpa using hfo
      simp [JsonVariant.setMember, JsonVariant.containsKey, JsonVariant.member, List.lookup,
        h4, h5, h2]

/-- C2 (the code at the failing input): `store` on the registry holding the one Output
`(id=1, pin=12, flags=0)` reports one Output stored, and `init` on the empty registry
against that document loads nothing. -/
theorem store_then_init_loses_outputs :
    (OutputManager.store jsonKeys [{ id := 1, pin := 12, flags := 0, active := false }]).1 = 1 ∧
    (OutputManager.init jsonKeys
      (some (OutputManager.store jsonKeys
        [{ id := 1, pin := 12, flags := 0, active := false }]).2) []).outputs = [] := by
  decide

/-! ## Remote sensors -/

/-- C6: with `now = micros / 1000` the current time in milliseconds, an active sensor
with `now - lastUpdate > CONFIG_REMOTE_SENSORS_DECAY` has value 0 and is inactive after
one `check()`; a sensor with `now - lastUpdate <= CONFIG_REMOTE_SENSORS_DECAY` (equality
included) is left as it was. The difference is taken in the integers, so the
statement covers every `now`. -/
theorem check_decays_after_window (CONFIG_REMOTE_SENSORS_DECAY micros : Nat)
    (s : RemoteSensor) :
    (s.active = true ∧
        ((micros / 1000 : Nat) : Int) - (s.lastUpdate : Int) > (CONFIG_REMOTE_SENSORS_DECAY : Int) →
      (s.check CONFIG_REMOTE_SENSORS_DECAY micros).value = 0 ∧
      (s.check CONFIG_REMOTE_SENSORS_DECAY micros).active = false) ∧
    (((micros / 1000 : Nat) : Int) - (s.lastUpdate : Int) ≤ (CONFIG_REMOTE_SENSORS_DECAY : Int) →
      s.check CONFIG_REMOTE_SENSORS_DECAY micros = s) := by
  constructor
  · rintro ⟨hact, hlate⟩
    have hgt : micros / 1000 > s.lastUpdate + CONFIG_REMOTE_SENSORS_DECAY := by omega
    simp [RemoteSensor.check, RemoteSensor.setSensorValue, hact, hgt]
  · intro hin
    have hle : ¬ micros / 1000 > s.lastUpdate + CONFIG_REMOTE_SENSORS_DECAY := by omega
    simp [RemoteSensor.check, hle]

theorem RemoteSensorManager.filter_rawID_of_not_mem (R : List RemoteSensor) (rawId : Nat)
    (h : rawId ∉ R.map RemoteSensor.rawID) :
    R.filter (fun x => decide (x.rawID = rawId)) = [] := by
  induction R with
  | nil => rfl
  | cons s rest ih =>
    simp only [List.map_cons, List.mem_cons, not_or] at h
    have hs : ¬ s.rawID = rawId := fun e => h.1 e.symm
    simp [List.filter_cons, hs, ih h.2]

theorem RemoteSensorManager.createOrUpdate_filter (first micros : Nat)
    (R : List RemoteSensor) (rawId value : Nat)
    (hids : (R.map RemoteSensor.rawID).Nodup) :
    ∃ s, (RemoteSensorManager.createOrUpdate first micros R rawId value).filter
        (fun x => decide (x.rawID = rawId)) = [s] ∧
      s.rawID = rawId ∧ s.value = value ∧ s.active = decide (value ≠ 0) := by
  induction R with
  | nil =>
    exact ⟨RemoteSensor.create first micros rawId value,
      by simp [RemoteSensorManager.createOrUpdate, RemoteSensor.create,
        RemoteSensor.setSensorValue],
      by simp [RemoteSensor.create, RemoteSensor.setSensorValue]⟩
  | cons s rest ih =>
    simp only [List.map_cons, List.nodup_cons] at hids
    by_cases hs : s.rawID = rawId
    · refine ⟨RemoteSensor.setSensorValue micros s value, ?_, ?_⟩
      · have hrest := RemoteSensorManager.filter_rawID_of_not_mem rest rawId (hs ▸ hids.1)
        simp [RemoteSensorManager.createOrUpdate, hs, List.filter_cons, hrest,
          RemoteSensor.setSensorValue]
      · simp [RemoteSensor.setSensorValue, hs]
    · obtain ⟨u, hu, hrest⟩ := ih hids.2
      exact ⟨u, by simp [RemoteSensorManager.createOrUpdate, hs, List.filter_cons, hu], hrest⟩

theorem RemoteSensorManager.createOrUpdate_again_length (first micros later : Nat)
    (R : List RemoteSensor) (rawId value : Nat) :
    (RemoteSensorManager.createOrUpdate first later
      (RemoteSensorManager.createOrUpdate first micros R rawId value) rawId value).length =
    (RemoteSensorManager.createOrUpdate first micros R rawId value).length := by
  induction R with
  | nil =>
    simp [RemoteSensorManager.createOrUpdate, RemoteSensor.create, RemoteSensor.setSensorValue]
  | cons s rest ih =>
    by_cases hs : s.rawID = rawId
    · simp [RemoteSensorManager.createOrUpdate, hs, RemoteSensor.setSensorValue]
    · simp [RemoteSensorManager.createOrUpdate, hs, ih]

/-- C7: for every registry with pairwise distinct rawIds, after
`createOrUpdate(rawId, value)` (at any clock reading) exactly one entry has that
rawId, its value is the reported value and it is active exactly when the value is
not 0; a second identical report (at any later reading) leaves the number of entries
unchanged. -/
theorem remote_createOrUpdate_one_entry (first micros later : Nat)
    (R : List RemoteSensor) (rawId value : Nat)
    (hids : (R.map RemoteSensor.rawID).Nodup) :
    (∃ s, (RemoteSensorManager.createOrUpdate first micros R rawId value).filter
        (fun x => decide (x.rawID = rawId)) = [s] ∧
      s.rawID = rawId ∧ s.value = value ∧ s.active = decide (value ≠ 0)) ∧
    (RemoteSensorManager.createOrUpdate first later
      (RemoteSensorManager.createOrUpdate first micros R rawId value) rawId value).length =
    (RemoteSensorManager.createOrUpdate first micros R rawId value).length :=
  ⟨RemoteSensorManager.createOrUpdate_filter first micros R rawId value hids,
    RemoteSensorManager.createOrUpdate_again_length first micros later R rawId value⟩

/-- C7 on a registry of two sensors (offset 100, clock readings in microseconds), and
its two scenarios: `createOrUpdate(5, 1)` twice on the empty registry yields one entry
with rawId 5; the reports `(7, 42)` then `(7, 0)` yield one entry, inactive. -/
theorem remote_createOrUpdate_one_entry_witness :
    (([{ id := 103, rawID := 3, value := 1, active := true, lastUpdate := 1 },
        { id := 105, rawID := 5, value := 0, active := false, lastUpdate := 2 }] :
      List RemoteSensor).map RemoteSensor.rawID).Nodup ∧
    (RemoteSensorManager.createOrUpdate 100 5000
        [{ id := 103, rawID := 3, value := 1, active := true, lastUpdate := 1 },
          { id := 105, rawID := 5, value := 0, active := false, lastUpdate := 2 }] 5 1).length =
      2 ∧
    (RemoteSensorManager.createOrUpdate 100 6000
      (RemoteSensorManager.createOrUpdate 100 5000 [] 5 1) 5 1) =
      [{ id := 105, rawID := 5, value := 1, active := true, lastUpdate := 6 }] ∧
    (RemoteSensorManager.createOrUpdate 100 6000
      (RemoteSensorManager.createOrUpdate 100 5000 [] 7 42) 7 0) =
      [{ id := 107, rawID := 7, value := 0, active := false, lastUpdate := 6 }] :=
  ⟨by decide,
    ((remote_createOrUpdate_one_entry 100 5000 6000
        [{ id := 103, rawID := 3, value := 1, active := true, lastUpdate := 1 },
          { id := 105, rawID := 5, value := 0, active := false, lastUpdate := 2 }] 5 1
        (by decide)).2.symm.trans (by decide)),
    by decide, by decide⟩

/-- C8 (the code at the failing input): with the first-remote-sensor offset 100, after
`createOrUpdate(5, 1)` on the empty registry `remove(5)` returns false and the entry
with rawId 5 stays: `remove` compares `getID()`, 105, where `createOrUpdate` compares
`getRawID()`. -/
theorem remote_remove_misses_reported_id :
    RemoteSensorManager.remove (RemoteSensorManager.createOrUpdate 100 5000 [] 5 1) 5 =
      (false, [{ id := 105, rawID := 5, value := 1, active := true, lastUpdate := 5 }]) := by
  decide

/-! ## Failed commands -/

theorem broadcasts_append (a b : List Effect) :
    broadcasts (a ++ b) = broadcasts a ++ broadcasts b := by
  induction a with
  | nil => rfl
  | cons e rest ih => cases e <;> simp [broadcasts, ih]

theorem status_text_ne_failed (t : String) : "<Y " ++ t ≠ COMMAND_FAILED_RESPONSE := by
  intro h
  have h2 := congrArg String.data h
  simp [String.data_append, COMMAND_FAILED_RESPONSE] at h2

theorem Output.set_no_failed (o : Output) (active announce : Bool) :
    COMMAND_FAILED_RESPONSE ∉ broadcasts (o.set active announce).2 := by
  cases announce
  · simp [Output.set, broadcasts]
  · simp only [Output.set, broadcasts, if_true, List.mem_singleton, String.append_assoc]
    exact fun h => status_text_ne_failed _ h.symm

theorem Output.update_broadcasts (o : Output) (pin flags : Nat) :
    broadcasts (o.update pin flags).2 = [] := by
  unfold Output.update
  simp only [broadcasts_append]
  split_ifs <;> simp [Output.set, broadcasts]

theorem Output.create_broadcasts (id pin flags : Nat) :
    broadcasts (Output.create id pin flags).2 = [] := by
  unfold Output.create
  simp only [broadcasts_append]
  split_ifs <;> simp [Output.set, broadcasts]

theorem set_ret_false (R : List Output) (id : Nat) (active : Bool)
    (h : (OutputManager.set R id active).ret = false) :
    (OutputManager.set R id active).outputs = R ∧
    (OutputManager.set R id active).effects = [] := by
  induction R with
  | nil => simp [OutputManager.set]
  | cons o rest ih =>
    by_cases ho : o.id = id
    · simp [OutputManager.set, ho] at h
    · simp only [OutputManager.set, ho, if_false] at h ⊢
      exact ⟨by rw [(ih h).1], (ih h).2⟩

theorem registry_set_no_failed (R : List Output) (id : Nat) (active : Bool) :
    COMMAND_FAILED_RESPONSE ∉ broadcasts (OutputManager.set R id active).effects := by
  induction R with
  | nil => simp [OutputManager.set, broadcasts]
  | cons o rest ih =>
    by_cases ho : o.id = id
    · simp only [OutputManager.set, ho, if_true]
      exact Output.set_no_failed o active _
    · simpa [OutputManager.set, ho] using ih

theorem updateExisting_broadcasts (R : List Output) (id pin flags : Nat)
    (r : List Output × List Effect) (h : updateExisting R id pin flags = some r) :
    broadcasts r.2 = [] := by
  induction R generalizing r with
  | nil => simp [updateExisting] at h
  | cons o rest ih =>
    by_cases ho : o.id = id
    · simp only [updateExisting, ho, if_true, Option.some.injEq] at h
      subst h
      exact Output.update_broadcasts o pin flags
    · simp only [updateExisting, ho, if_false, Option.map_eq_some'] at h
      obtain ⟨r0, hr0, rfl⟩ := h
      exact ih r0 hr0

theorem createOrUpdate_broadcasts (is_restricted_pin : Int → Bool) (R : List Output)
    (id pin flags : Nat) :
    broadcasts (createOrUpdate is_restricted_pin R id pin flags).effects = [] := by
  unfold createOrUpdate
  cases hu : updateExisting R id pin flags with
  | none =>
    cases hp : is_restricted_pin (toInt8 pin)
    · simpa using Output.create_broadcasts id pin flags
    · simp [broadcasts]
  | some r => exact updateExisting_broadcasts R id pin flags r hu

theorem showStatus_no_failed (R : List Output) :
    COMMAND_FAILED_RESPONSE ∉ broadcasts (showStatus R) := by
  induction R with
  | nil => simp [showStatus, broadcasts]
  | cons o rest ih =>
    have hrest : COMMAND_FAILED_RESPONSE ∉ broadcasts (rest.map Output.showStatus).flatten := ih
    simp only [showStatus, List.map_cons, List.flatten_cons, broadcasts_append, List.mem_append,
      not_or]
    refine ⟨?_, hrest⟩
    simp only [Output.showStatus, broadcasts, List.mem_singleton, String.append_assoc]
    exact fun h => status_text_ne_failed _ h.symm

theorem remove_effects (R : List Output) (id : Nat) : (remove R id).effects = [] := by
  unfold remove
  cases removeScan R id 0 none <;> rfl

theorem remove_ret_false (R : List Output) (id : Nat) (h : (remove R id).ret = false) :
    (remove R id).outputs = R := by
  unfold remove at h ⊢
  cases hs : removeScan R id 0 none with
  | none => rfl
  | some pos => simp [hs] at h

theorem process_failed_keeps_registry (is_restricted_pin : Int → Bool) (R : List Output)
    (arguments : List String) (out : Outcome Unit)
    (hrun : OutputCommandAdapter.process is_restricted_pin R arguments = some out)
    (hfail : COMMAND_FAILED_RESPONSE ∈ broadcasts out.effects) : out.outputs = R := by
  have hO : COMMAND_FAILED_RESPONSE ≠ COMMAND_SUCCESSFUL_RESPONSE := by decide
  rcases arguments with _ | ⟨a0, _ | ⟨a1, _ | ⟨a2, _ | ⟨a3, rest⟩⟩⟩⟩
  · simp [OutputCommandAdapter.process] at hrun
    subst hrun; rfl
  · simp only [OutputCommandAdapter.process, List.isEmpty_cons, Bool.false_eq_true, if_false,
      List.getD_cons_zero, List.length_singleton, if_true] at hrun
    cases hs : stoi a0 with
    | none => simp [hs] at hrun
    | some n =>
      simp only [hs] at hrun
      cases hr : (remove R (toUInt16 n)).ret with
      | true =>
        simp [hr, remove_effects] at hrun
        subst hrun
        simp [broadcasts] at hfail
        exact absurd hfail hO
      | false =>
        simp [hr] at hrun
        subst hrun
        exact remove_ret_false R _ hr
  · simp only [OutputCommandAdapter.process, List.isEmpty_cons, Bool.false_eq_true, if_false,
      List.getD_cons_zero, List.length_cons, List.length_singleton, List.length_nil] at hrun
    cases hs : stoi a0 with
    | none => simp [hs] at hrun
    | some n =>
      simp only [hs] at hrun
      cases hr : (OutputManager.set R (toUInt16 n) (decide (firstChar a1 = 1))).ret with
      | true =>
        simp [hr] at hrun
        subst hrun
        simp at hfail
        exact absurd hfail (registry_set_no_failed R _ _)
      | false =>
        simp [hr] at hrun
        subst hrun
        exact (set_ret_false R _ _ hr).1
  · simp only [OutputCommandAdapter.process, List.isEmpty_cons, Bool.false_eq_true, if_false,
      List.getD_cons_zero, List.length_cons, List.length_singleton, List.length_nil] at hrun
    cases hs : stoi a0 with
    | none => simp [hs] at hrun
    | some n =>
      simp only [hs] at hrun
      simp at hrun
      split at hrun
      · simp at hrun
        subst hrun
        simp [broadcasts_append, createOrUpdate_broadcasts, broadcasts] at hfail
        exact absurd hfail hO
      · simp at hrun
  · simp only [OutputCommandAdapter.process, List.isEmpty_cons, Bool.false_eq_true, if_false,
      List.getD_cons_zero, List.length_cons] at hrun
    cases hs : stoi a0 with
    | none => simp [hs] at hrun
    | some n =>
      simp [hs] at hrun
      subst hrun
      rfl

theorem processEx_failed_keeps_registry (R : List Output) (arguments : List String)
    (out : Outcome Unit) (hrun : OutputExCommandAdapter.process R arguments = some out)
    (hfail : COMMAND_FAILED_RESPONSE ∈ broadcasts out.effects) : out.outputs = R := by
  rcases arguments with _ | ⟨a0, rest⟩
  · simp [OutputExCommandAdapter.process] at hrun
    subst hrun; rfl
  · simp only [OutputExCommandAdapter.process, List.isEmpty_cons, Bool.false_eq_true, if_false,
      List.getD_cons_zero] at hrun
    cases hs : stoi a0 with
    | none => simp [hs] at hrun
    | some n =>
      simp only [hs] at hrun
      cases hp : getOutputPos R (toUInt16 n) with
      | none =>
        simp [hp] at hrun
        subst hrun; rfl
      | some pos =>
        simp only [hp, List.get?_eq_getElem?] at hrun
        cases hg : R[pos]? with
        | none =>
          simp [hg] at hrun
          subst hrun; rfl
        | some o =>
          simp [hg] at hrun
          subst hrun
          exact absurd hfail (Output.set_no_failed o _ _)

/-- C11: whenever `OutputCommandAdapter::process` or `OutputExCommandAdapter::process`
returns (no `std::stoi` throws) and has broadcast the failure response `<X>`, the
Output registry after the command is the registry before it. -/
theorem failed_command_leaves_registry (is_restricted_pin : Int → Bool) (R : List Output)
    (arguments : List String) :
    (∀ out, OutputCommandAdapter.process is_restricted_pin R arguments = some out →
      COMMAND_FAILED_RESPONSE ∈ broadcasts out.effects → out.outputs = R) ∧
    (∀ out, OutputExCommandAdapter.process R arguments = some out →
      COMMAND_FAILED_RESPONSE ∈ broadcasts out.effects → out.outputs = R) :=
  ⟨fun out => process_failed_keeps_registry is_restricted_pin R arguments out,
    fun out => processEx_failed_keeps_registry R arguments out⟩

/-- C11 on the registry holding Output 5, for the commands `[6]` (remove), `[6, 0]`
(set) and the toggle command `[6]`, which name no Output: each broadcasts `<X>` and
leaves the registry as it was. -/
theorem failed_command_leaves_registry_witness :
    (∃ out, OutputCommandAdapter.process (fun _ => false)
        [{ id := 5, pin := 12, flags := 0, active := true }] ["6"] = some out ∧
      broadcasts out.effects = ["<X>"] ∧
      out.outputs = [{ id := 5, pin := 12, flags := 0, active := true }]) ∧
    (∃ out, OutputCommandAdapter.process (fun _ => false)
        [{ id := 5, pin := 12, flags := 0, active := true }] ["6", "0"] = some out ∧
      broadcasts out.effects = ["<X>"] ∧
      out.outputs = [{ id := 5, pin := 12, flags := 0, active := true }]) ∧
    (∃ out, OutputExCommandAdapter.process
        [{ id := 5, pin := 12, flags := 0, active := true }] ["6"] = some out ∧
      broadcasts out.effects = ["<X>"] ∧
      out.outputs = [{ id := 5, pin := 12, flags := 0, active := true }]) :=
  ⟨⟨_, rfl, by decide,
      (failed_command_leaves_registry (fun _ => false)
        [{ id := 5, pin := 12, flags := 0, active := true }] ["6"]).1 _ rfl (by decide)⟩,
    ⟨_, rfl, by decide, by decide⟩,
    ⟨_, rfl, by decide, by decide⟩⟩

/-! ## Uniqueness of Output ids -/

theorem set_ids (R : List Output) (id : Nat) (active : Bool) :
    (OutputManager.set R id active).outputs.map Output.id = R.map Output.id := by
  induction R with
  | nil => rfl
  | cons o rest ih =>
    by_cases ho : o.id = id
    · simp [OutputManager.set, ho, Output.set]
    · simp [OutputManager.set, ho, ih]

theorem toggle_ids (R : List Output) (id : Nat) :
    (toggle R id).outputs.map Output.id = R.map Output.id := by
  induction R with
  | nil => rfl
  | cons o rest ih =>
    by_cases ho : o.id = id
    · simp [toggle, ho, Output.set]
    · simp [toggle, ho, ih]

theorem updateExisting_ids (R : List Output) (id pin flags : Nat)
    (r : List Output × List Effect) (h : updateExisting R id pin flags = some r) :
    r.1.map Output.id = R.map Output.id := by
  induction R generalizing r with
  | nil => simp [updateExisting] at h
  | cons o rest ih =>
    by_cases ho : o.id = id
    · simp only [updateExisting, ho, if_true, Option.some.injEq] at h
      subst h
      simp [Output.update_fst]
    · simp only [updateExisting, ho, if_false, Option.map_eq_some'] at h
      obtain ⟨r0, hr0, rfl⟩ := h
      simp [ih r0 hr0]

theorem createOrUpdate_ids_nodup (is_restricted_pin : Int → Bool) (R : List Output)
    (id pin flags : Nat) (hids : (R.map Output.id).Nodup) :
    ((createOrUpdate is_restricted_pin R id pin flags).outputs.map Output.id).Nodup := by
  unfold createOrUpdate
  cases hu : updateExisting R id pin flags with
  | none =>
    have hall := (getOutput_eq_none_iff R id).1
      ((updateExisting_eq_none_iff R id pin flags).1 hu)
    cases hp : is_restricted_pin (toInt8 pin)
    · simp only [Bool.false_eq_true, if_false, List.map_append, List.map_cons, List.map_nil,
        Output.create_fst]
      refine List.Nodup.append hids (List.nodup_singleton _) ?_
      intro x hx hx2
      simp only [List.mem_singleton] at hx2
      obtain ⟨o, ho, rfl⟩ := List.mem_map.1 hx
      exact hall o ho hx2
    · simpa using hids
  | some r =>
    simp only
    rw [updateExisting_ids R id pin flags r hu]
    exact hids

theorem remove_ids_nodup (R : List Output) (id : Nat) (hids : (R.map Output.id).Nodup) :
    ((remove R id).outputs.map Output.id).Nodup := by
  unfold remove
  cases removeScan R id 0 none with
  | none => exact hids
  | some pos => exact List.Nodup.sublist ((List.eraseIdx_sublist R pos).map Output.id) hids

theorem OutputCall.run_ids_nodup (is_restricted_pin : Int → Bool) (R : List Output)
    (call : OutputCall) (hids : (R.map Output.id).Nodup) :
    ((call.run is_restricted_pin R).map Output.id).Nodup := by
  cases call with
  | createOrUpdate id pin flags => exact createOrUpdate_ids_nodup is_restricted_pin R id pin flags hids
  | remove id => exact remove_ids_nodup R id hids
  | set id active => simpa [OutputCall.run, set_ids] using hids
  | toggle id => simpa [OutputCall.run, toggle_ids] using hids

theorem runOutputCalls_ids_nodup (is_restricted_pin : Int → Bool) (calls : List OutputCall)
    (R : List Output) (hids : (R.map Output.id).Nodup) :
    ((runOutputCalls is_restricted_pin R calls).map Output.id).Nodup := by
  induction calls generalizing R with
  | nil => exact hids
  | cons call rest ih =>
    exact ih (call.run is_restricted_pin R) (OutputCall.run_ids_nodup is_restricted_pin R call hids)

/-- C12: starting from the empty registry, after any finite sequence of
`createOrUpdate`, `remove`, `set` and `toggle` calls with arbitrary arguments (and
whatever `is_restricted_pin` is), no two Outputs of the registry have the same id. -/
theorem output_ids_unique (is_restricted_pin : Int → Bool) (calls : List OutputCall) :
    ((runOutputCalls is_restricted_pin [] calls).map Output.id).Nodup :=
  runOutputCalls_ids_nodup is_restricted_pin calls [] List.nodup_nil

/-! ## Uniqueness of RemoteSensor rawIds -/

theorem RemoteSensor.check_rawID_id (decay micros : Nat) (s : RemoteSensor) :
    (s.check decay micros).rawID = s.rawID ∧ (s.check decay micros).id = s.id := by
  unfold RemoteSensor.check
  split_ifs <;> simp [RemoteSensor.setSensorValue]

theorem removeScan_absent (R : List Output) (id pos : Nat) (found : Option Nat)
    (h : ∀ o ∈ R, o.id ≠ id) : removeScan R id pos found = found := by
  induction R generalizing pos found with
  | nil => rfl
  | cons a rest ih =>
    have ha : ¬ a.id = id := h a (List.mem_cons_self a rest)
    simp only [removeScan, ha, if_false]
    exact ih (pos + 1) found (fun o ho => h o (List.mem_cons_of_mem a ho))

theorem filter_ne_of_absent (R : List Output) (id : Nat) (h : ∀ o ∈ R, o.id ≠ id) :
    R.filter (fun o => decide (o.id ≠ id)) = R :=
  List.filter_eq_self.2 (fun o ho => by simpa using h o ho)

theorem removeScan_present (R : List Output) (id pos : Nat) (found : Option Nat)
    (hids : (R.map Output.id).Nodup) (hmem : ∃ o ∈ R, o.id = id) :
    ∃ k, removeScan R id pos found = some (pos + k) ∧ k < R.length ∧
      R.eraseIdx k = R.filter (fun o => decide (o.id ≠ id)) := by
  induction R generalizing pos found with
  | nil =>
    obtain ⟨o, ho, _⟩ := hmem
    cases ho
  | cons a rest ih =>
    simp only [List.map_cons, List.nodup_cons] at hids
    by_cases ha : a.id = id
    · have hrest : ∀ o ∈ rest, o.id ≠ id := by
        intro o ho hoid
        exact hids.1 (List.mem_map.2 ⟨o, ho, by rw [hoid, ha]⟩)
      refine ⟨0, ?_, by simp, ?_⟩
      · simp only [removeScan, ha, if_true, Nat.add_zero]
        exact removeScan_absent rest id (pos + 1) (some pos) hrest
      · simp only [List.eraseIdx_cons_zero, List.filter_cons, ha, ne_eq, not_true_eq_false,
          decide_False, Bool.false_eq_true, if_false]
        exact (filter_ne_of_absent rest id hrest).symm
    · have hmem2 : ∃ o ∈ rest, o.id = id := by
        obtain ⟨o, ho, hoid⟩ := hmem
        rcases List.mem_cons.1 ho with h | h
        · subst h; exact absurd hoid ha
        · exact ⟨o, h, hoid⟩
      obtain ⟨k, hk, hlt, hfil⟩ := ih (pos + 1) found hids.2 hmem2
      refine ⟨k + 1, ?_, by simpa using hlt, ?_⟩
      · simp only [removeScan, ha, if_false]
        rw [hk]; congr 1; omega
      · simp [List.filter_cons, ha, hfil]

/-- C14: for every registry and every id that no Output of it has, `remove(id)` returns
false and leaves the registry unchanged (and calls no primitive). -/
theorem remove_absent (R : List Output) (id : Nat) (h : ∀ o ∈ R, o.id ≠ id) :
    (remove R id).ret = false ∧ (remove R id).outputs = R ∧
    (remove R id).outputs.length = R.length ∧ (remove R id).effects = [] := by
  have hs := removeScan_absent R id 0 none h
  simp [remove, hs]

/-- C14 on the registry holding Outputs 3 and 7, for the id 5. -/
theorem remove_absent_witness :
    (∀ o ∈ [({ id := 3, pin := 12, flags := 0, active := false } : Output),
        { id := 7, pin := 13, flags := 1, active := true }], o.id ≠ 5) ∧
    remove [{ id := 3, pin := 12, flags := 0, active := false },
        { id := 7, pin := 13, flags := 1, active := true }] 5 =
      { ret := false,
        outputs := [{ id := 3, pin := 12, flags := 0, active := false },
          { id := 7, pin := 13, flags := 1, active := true }],
        effects := [] } ∧
    (remove [{ id := 3, pin := 12, flags := 0, active := false },
        { id := 7, pin := 13, flags := 1, active := true }] 5).ret = false :=
  ⟨by decide, by decide,
    (remove_absent [{ id := 3, pin := 12, flags := 0, active := false },
        { id := 7, pin := 13, flags := 1, active := true }] 5 (by decide)).1⟩

/-- C15: for every registry with pairwise distinct ids and every id present in it,
`remove(id)` returns true, `getOutput(id)` then finds nothing, the registry is one
element shorter, and it is the old registry without the Output of that id: every
other Output is there, unchanged and in the same order. -/
theorem remove_present (R : List Output) (id : Nat) (hids : (R.map Output.id).Nodup)
    (hmem : ∃ o ∈ R, o.id = id) :
    (remove R id).ret = true ∧
    getOutput (remove R id).outputs id = none ∧
    (remove R id).outputs.length + 1 = R.length ∧
    (remove R id).outputs = R.filter (fun o => decide (o.id ≠ id)) := by
  obtain ⟨k, hk, hlt, hfil⟩ := removeScan_present R id 0 none hids hmem
  simp only [Nat.zero_add] at hk
  have hout : (remove R id).outputs = R.eraseIdx k := by simp [remove, hk]
  refine ⟨by simp [remove, hk], ?_, ?_, by rw [hout, hfil]⟩
  · rw [hout, hfil, getOutput_eq_none_iff]
    intro o ho
    simpa using (List.mem_filter.1 ho).2
  · rw [hout, List.length_eraseIdx, if_pos hlt]
    omega

/-- C15 on the registry holding Outputs 3, 7 and 9, for the id 7. -/
theorem remove_present_witness :
    (([{ id := 3, pin := 12, flags := 0, active := false },
        { id := 7, pin := 13, flags := 1, active := true },
        { id := 9, pin := 14, flags := 6, active := true }] : List Output).map
      Output.id).Nodup ∧
    (remove [{ id := 3, pin := 12, flags := 0, active := false },
        { id := 7, pin := 13, flags := 1, active := true },
        { id := 9, pin := 14, flags := 6, active := true }] 7).ret = true ∧
    (remove [{ id := 3, pin := 12, flags := 0, active := false },
        { id := 7, pin := 13, flags := 1, active := true },
        { id := 9, pin := 14, flags := 6, active := true }] 7).outputs =
      [{ id := 3, pin := 12, flags := 0, active := false },
        { id := 9, pin := 14, flags := 6, active := true }] :=
  ⟨by decide,
    (remove_present [{ id := 3, pin := 12, flags := 0, active := false },
        { id := 7, pin := 13, flags := 1, active := true },
        { id := 9, pin := 14, flags := 6, active := true }] 7 (by decide)
      ⟨{ id := 7, pin := 13, flags := 1, active := true }, by decide, rfl⟩).1,
    by decide⟩

/-! ## Loading a persisted Output, announcing a state -/

theorem toUInt16_natCast (n : Nat) (h : n < 65536) : toUInt16 (n : Int) = n := by
  unfold toUInt16; omega

theorem toUInt8_natCast (n : Nat) (h : n < 256) : toUInt8 (n : Int) = n := by
  unfold toUInt8; omega

theorem Output.load_fst (keys : JsonKeys) (json : JsonVariant) :
    (Output.load keys json).1 =
      { id := toUInt16 (json.member keys.JSON_ID_NODE).asInt,
        pin := toUInt8 (json.member keys.JSON_PIN_NODE).asInt,
        flags := toUInt8 (json.member keys.JSON_FLAGS_NODE).asInt,
        active :=
          if (toUInt8 (json.member keys.JSON_FLAGS_NODE).asInt).testBit 1 = true then
            (toUInt8 (json.member keys.JSON_FLAGS_NODE).asInt).testBit 2
          else (json.member keys.JSON_STATE_NODE).asBool } := by
  unfold Output.load
  simp only [bitRead_ne_zero_iff, OUTPUT_IFLAG_RESTORE_STATE, OUTPUT_IFLAG_FORCE_STATE]
  by_cases h1 : (toUInt8 (json.member keys.JSON_FLAGS_NODE).asInt).testBit 1 = true <;>
    by_cases h2 : (toUInt8 (json.member keys.JSON_FLAGS_NODE).asInt).testBit 2 = true <;>
    cases h3 : (json.member keys.JSON_STATE_NODE).asBool <;>
    simp [h1, h2, Output.set]

/-- C16: for member names that are pairwise distinct and an id, pin and flags that fit
their types, `Output::toJson` writes the object `{id, pin, flags, state}`, and the
Output `Output::Output(JsonObject)` builds from it has the persisted id, pin and
flags, and is active as flags bit2 says when bit1 is set, as the persisted state says
when bit1 is clear; from the same object without the state member it is inactive
when bit1 is clear. -/
theorem load_persisted_output (keys : JsonKeys) (i p f : Nat) (st : Bool)
    (hip : keys.JSON_ID_NODE ≠ keys.JSON_PIN_NODE)
    (hif : keys.JSON_ID_NODE ≠ keys.JSON_FLAGS_NODE)
    (his : keys.JSON_ID_NODE ≠ keys.JSON_STATE_NODE)
    (hpf : keys.JSON_PIN_NODE ≠ keys.JSON_FLAGS_NODE)
    (hps : keys.JSON_PIN_NODE ≠ keys.JSON_STATE_NODE)
    (hfs : keys.JSON_FLAGS_NODE ≠ keys.JSON_STATE_NODE)
    (hi : i < 65536) (hp : p < 256) (hf : f < 256) :
    Output.toJson keys { id := i, pin := p, flags := f, active := st } =
      JsonVariant.object [(keys.JSON_ID_NODE, JsonVariant.number i),
        (keys.JSON_PIN_NODE, JsonVariant.number p),
        (keys.JSON_FLAGS_NODE, JsonVariant.number f),
        (keys.JSON_STATE_NODE, JsonVariant.boolean st)] ∧
    (Output.load keys (JsonVariant.object [(keys.JSON_ID_NODE, JsonVariant.number i),
        (keys.JSON_PIN_NODE, JsonVariant.number p),
        (keys.JSON_FLAGS_NODE, JsonVariant.number f),
        (keys.JSON_STATE_NODE, JsonVariant.boolean st)])).1 =
      { id := i, pin := p, flags := f,
        active := if f.testBit 1 = true then f.testBit 2 else st } ∧
    (Output.load keys (JsonVariant.object [(keys.JSON_ID_NODE, JsonVariant.number i),
        (keys.JSON_PIN_NODE, JsonVariant.number p),
        (keys.JSON_FLAGS_NODE, JsonVariant.number f)])).1 =
      { id := i, pin := p, flags := f,
        active := if f.testBit 1 = true then f.testBit 2 else false } := by
  have e1 : (keys.JSON_PIN_NODE == keys.JSON_ID_NODE) = false := by
    simpa using fun e => hip e.symm
  have e2 : (keys.JSON_FLAGS_NODE == keys.JSON_ID_NODE) = false := by
    simpa using fun e => hif e.symm
  have e3 : (keys.JSON_STATE_NODE == keys.JSON_ID_NODE) = false := by
    simpa using fun e => his e.symm
  have e4 : (keys.JSON_FLAGS_NODE == keys.JSON_PIN_NODE) = false := by
    simpa using fun e => hpf e.symm
  have e5 : (keys.JSON_STATE_NODE == keys.JSON_PIN_NODE) = false := by
    simpa using fun e => hps e.symm
  have e6 : (keys.JSON_STATE_NODE == keys.JSON_FLAGS_NODE) = false := by
    simpa using fun e => hfs e.symm
  refine ⟨?_, ?_, ?_⟩
  · simp [Output.toJson, JsonVariant.setMember, List.lookup, e1, e2, e3, e4, e5, e6]
  · rw [Output.load_fst]
    simp [JsonVariant.member, List.lookup, JsonVariant.asInt, JsonVariant.asBool,
      e1, e2, e3, e4, e5, e6, toUInt16_natCast i hi, toUInt8_natCast p hp, toUInt8_natCast f hf]
  · rw [Output.load_fst]
    simp [JsonVariant.member, List.lookup, JsonVariant.asInt, JsonVariant.asBool,
      e1, e2, e3, e4, e5, e6, toUInt16_natCast i hi, toUInt8_natCast p hp, toUInt8_natCast f hf]

/-- C16 with the member names `id`, `pin`, `flags`, `state`: the persisted Output
`(id=9, pin=14, flags=0b010, state=true)` (restore set, force clear) is loaded
inactive, and `(id=3, pin=12, flags=0, state=true)` is loaded active. -/
theorem load_persisted_output_witness :
    (Output.load jsonKeys (JsonVariant.object [(jsonKeys.JSON_ID_NODE, JsonVariant.number 9),
        (jsonKeys.JSON_PIN_NODE, JsonVariant.number 14),
        (jsonKeys.JSON_FLAGS_NODE, JsonVariant.number 2),
        (jsonKeys.JSON_STATE_NODE, JsonVariant.boolean true)])).1 =
      { id := 9, pin := 14, flags := 2,
        active := if Nat.testBit 2 1 = true then Nat.testBit 2 2 else true } ∧
    (Output.load jsonKeys (Output.toJson jsonKeys
        { id := 9, pin := 14, flags := 2, active := true })).1 =
      { id := 9, pin := 14, flags := 2, active := false } ∧
    (Output.load jsonKeys (Output.toJson jsonKeys
        { id := 3, pin := 12, flags := 0, active := true })).1 =
      { id := 3, pin := 12, flags := 0, active := true } :=
  ⟨(load_persisted_output jsonKeys 9 14 2 true (by decide) (by decide) (by decide) (by decide)
      (by decide) (by decide) (by decide) (by decide) (by decide)).2.1,
    by decide, by decide⟩

/-- C17: `Output::set(a, announce=true)` emits exactly one broadcast, the text
`<Y i n>` with `i` the id and `n` 0 when `a` is true, 1 when `a` is false;
`Output::set(a, announce=false)` emits no broadcast. -/
theorem set_announces_inverted_state (o : Output) (a : Bool) :
    broadcasts (o.set a true).2 =
      ["<Y " ++ toString o.id ++ " " ++ (if a = true then "0" else "1") ++ ">"] ∧
    broadcasts (o.set a false).2 = [] := by
  cases a <;> simp [Output.set, broadcasts, boolDigit]

/-! ## Listings -/

theorem foldl_append_init {α : Type} (f : α → String) (l : List α) (a b : String) :
    l.foldl (fun acc x => acc ++ f x) (a ++ b) = a ++ l.foldl (fun acc x => acc ++ f x) b := by
  induction l generalizing b with
  | nil => rfl
  | cons x rest ih => simp only [List.foldl_cons, String.append_assoc, ih]

theorem foldl_append_eq_join {α : Type} (f : α → String) (l : List α) :
    l.foldl (fun acc x => acc ++ f x) "" = String.join (l.map f) := by
  simp [String.join, List.foldl_map]

theorem sensor_text_ne_failed (t : String) : "<RS " ++ t ≠ COMMAND_FAILED_RESPONSE := by
  intro h
  have h2 := congrArg String.data h
  simp [String.data_append, COMMAND_FAILED_RESPONSE] at h2

/-- C18: `get_state_for_dccpp` returns the failure token `<X>` if and only if the
registry is empty; for a registry that is not empty it returns the concatenation, in
registry order, of one `<RS rawId value>` per entry (the rawId, not the internal id)
and nothing else. -/
theorem get_state_for_dccpp_lists_entries (R : List RemoteSensor) :
    (RemoteSensorManager.get_state_for_dccpp R = "<X>" ↔ R = []) ∧
    (R ≠ [] → RemoteSensorManager.get_state_for_dccpp R =
      String.join (R.map (fun s =>
        "<RS " ++ toString s.rawID ++ " " ++ toString s.value ++ ">"))) := by
  cases R with
  | nil => simp [RemoteSensorManager.get_state_for_dccpp, COMMAND_FAILED_RESPONSE]
  | cons s rest =>
    have hjoin : RemoteSensorManager.get_state_for_dccpp (s :: rest) =
        String.join ((s :: rest).map (fun s =>
          "<RS " ++ toString s.rawID ++ " " ++ toString s.value ++ ">")) := by
      simp only [RemoteSensorManager.get_state_for_dccpp, List.isEmpty_cons, Bool.false_eq_true,
        if_false]
      exact foldl_append_eq_join RemoteSensor.get_state_for_dccpp (s :: rest)
    refine ⟨?_, fun _ => hjoin⟩
    simp only [reduceCtorEq, iff_false]
    simp only [RemoteSensorManager.get_state_for_dccpp, List.isEmpty_cons, Bool.false_eq_true,
      if_false, List.foldl_cons]
    have h0 : ("" : String) ++ s.get_state_for_dccpp = s.get_state_for_dccpp ++ "" := by simp
    rw [h0, foldl_append_init]
    simp only [RemoteSensor.get_state_for_dccpp, String.append_assoc]
    exact sensor_text_ne_failed _

/-- C18 on a registry of two sensors (offset 100). -/
theorem get_state_for_dccpp_lists_entries_witness :
    ([{ id := 105, rawID := 5, value := 1, active := true, lastUpdate := 5 },
        { id := 107, rawID := 7, value := 0, active := false, lastUpdate := 6 }] :
      List RemoteSensor) ≠ [] ∧
    RemoteSensorManager.get_state_for_dccpp
        [{ id := 105, rawID := 5, value := 1, active := true, lastUpdate := 5 },
          { id := 107, rawID := 7, value := 0, active := false, lastUpdate := 6 }] =
      "<RS 5 1><RS 7 0>" :=
  ⟨by decide,
    ((get_state_for_dccpp_lists_entries
        [{ id := 105, rawID := 5, value := 1, active := true, lastUpdate := 5 },
          { id := 107, rawID := 7, value := 0, active := false, lastUpdate := 6 }]).2
      (by decide)).trans (by decide)⟩

/-- C19 (the code at the failing input): for a registry of one sensor `getStateAsJson`
returns `[`, the sensor's `toJson()` text, a comma and `]`: the comma the loop
appends after every entry stays before the closing bracket. The empty registry gives
`[]`. -/
theorem getStateAsJson_trailing_comma (toJson : RemoteSensor → String) (s : RemoteSensor) :
    RemoteSensorManager.getStateAsJson toJson [s] = "[" ++ toJson s ++ ",]" ∧
    RemoteSensorManager.getStateAsJson toJson [] = "[]" := by
  constructor
  · simp only [RemoteSensorManager.getStateAsJson, List.foldl_cons, List.foldl_nil,
      String.append_assoc]
    rfl
  · rfl

theorem showStatus_eq_map (R : List Output) :
    showStatus R = R.map (fun o => Effect.broadcast ("<Y " ++ toString o.id ++ " " ++
      toString o.pin ++ " " ++ toString o.flags ++ " " ++ boolDigit (!o.active) ++ ">")) := by
  induction R with
  | nil => rfl
  | cons o rest ih =>
    have hstep : showStatus (o :: rest) = Output.showStatus o ++ showStatus rest := by
      simp [showStatus]
    rw [hstep, ih]
    rfl

/-- C20: with an empty argument list `OutputCommandAdapter::process` returns, leaves the
registry unchanged, calls no other primitive and broadcasts one message per Output, in
registry order: `<Y id pin flags n>` with `n` 0 when the Output is active, 1 when it
is inactive. -/
theorem process_no_arguments_lists_outputs (is_restricted_pin : Int → Bool)
    (R : List Output) :
    OutputCommandAdapter.process is_restricted_pin R [] =
      some { ret := (), outputs := R,
             effects := R.map (fun o => Effect.broadcast ("<Y " ++ toString o.id ++ " " ++
               toString o.pin ++ " " ++ toString o.flags ++ " " ++
               (if o.active = true then "0" else "1") ++ ">")) } := by
  have hdigit : ∀ o : Output, boolDigit (!o.active) = (if o.active = true then "0" else "1") := by
    intro o; cases o.active <;> rfl
  simp [OutputCommandAdapter.process, showStatus_eq_map, hdigit]

/-! ## Frame of `set` and of the decay sweep -/

theorem set_ret_iff (R : List Output) (id : Nat) (active : Bool) :
    (OutputManager.set R id active).ret = true ↔ ∃ o ∈ R, o.id = id := by
  induction R with
  | nil => simp [OutputManager.set]
  | cons o rest ih =>
    by_cases ho : o.id = id
    · simp [OutputManager.set, ho]
    · simp [OutputManager.set, ho, ih]

theorem map_if_id_of_absent (R : List Output) (id : Nat) (f : Output → Output)
    (h : ∀ o ∈ R, o.id ≠ id) : R.map (fun o => if o.id = id then f o else o) = R := by
  induction R with
  | nil => rfl
  | cons a rest ih =>
    have ha : ¬ a.id = id := h a (List.mem_cons_self a rest)
    simp only [List.map_cons, ha, if_false]
    rw [ih (fun o ho => h o (List.mem_cons_of_mem a ho))]

theorem absent_of_nodup_cons (a : Output) (rest : List Output) (id : Nat)
    (hids : ((a :: rest).map Output.id).Nodup) (ha : a.id = id) : ∀ o ∈ rest, o.id ≠ id := by
  simp only [List.map_cons, List.nodup_cons] at hids
  intro o ho hoid
  exact hids.1 (List.mem_map.2 ⟨o, ho, by rw [hoid, ha]⟩)

theorem set_outputs_map (R : List Output) (id : Nat) (active : Bool)
    (hids : (R.map Output.id).Nodup) :
    (OutputManager.set R id active).outputs =
      R.map (fun o => if o.id = id then { o with active := active } else o) := by
  induction R with
  | nil => rfl
  | cons a rest ih =>
    by_cases ha : a.id = id
    · have hrest := absent_of_nodup_cons a rest id hids ha
      simp only [OutputManager.set, ha, if_true, List.map_cons, Output.set]
      rw [map_if_id_of_absent rest id _ hrest]
    · simp only [List.map_cons, List.nodup_cons] at hids
      simp only [OutputManager.set, ha, if_false, List.map_cons]
      rw [ih hids.2]

theorem set_of_getOutput (R : List Output) (id : Nat) (active : Bool) (o : Output)
    (h : getOutput R id = some o) :
    getOutput (OutputManager.set R id active).outputs id = some { o with active := active } := by
  induction R with
  | nil => simp [getOutput] at h
  | cons a rest ih =>
    by_cases ha : a.id = id
    · simp [getOutput, ha] at h
      subst h
      simp [OutputManager.set, getOutput, ha, Output.set]
    · simp only [getOutput, ha, if_false] at h
      simp [OutputManager.set, getOutput, ha, ih h]

/-- C21: for every registry with pairwise distinct ids, every id and every boolean a,
`set(id, a)` returns true if and only if an Output has the id; the registry it leaves
is the old one with the active value of the Output of that id replaced by a (so its
id, pin and flags, and every other Output, are unchanged, whatever the flags);
`getOutput(id)` then yields that Output with active = a; when `set` returns false
the registry is unchanged. -/
theorem set_frame (R : List Output) (id : Nat) (a : Bool)
    (hids : (R.map Output.id).Nodup) :
    ((OutputManager.set R id a).ret = true ↔ ∃ o ∈ R, o.id = id) ∧
    (OutputManager.set R id a).outputs =
      R.map (fun o => if o.id = id then { o with active := a } else o) ∧
    (∀ o, getOutput R id = some o →
      getOutput (OutputManager.set R id a).outputs id = some { o with active := a }) ∧
    ((OutputManager.set R id a).ret = false → (OutputManager.set R id a).outputs = R) :=
  ⟨set_ret_iff R id a, set_outputs_map R id a hids,
    fun o h => set_of_getOutput R id a o h,
    fun h => (set_ret_false R id a h).1⟩

/-- C21 on the registry holding Outputs 3 and 7: `set(7, false)` on the Output 7 whose
flags force it active, and `set(5, true)` for an id no Output has. -/
theorem set_frame_witness :
    (([{ id := 3, pin := 12, flags := 0, active := false },
        { id := 7, pin := 13, flags := 6, active := true }] : List Output).map
      Output.id).Nodup ∧
    (OutputManager.set [{ id := 3, pin := 12, flags := 0, active := false },
        { id := 7, pin := 13, flags := 6, active := true }] 7 false).outputs =
      [{ id := 3, pin := 12, flags := 0, active := false },
        { id := 7, pin := 13, flags := 6, active := false }] ∧
    (OutputManager.set [{ id := 3, pin := 12, flags := 0, active := false },
        { id := 7, pin := 13, flags := 6, active := true }] 7 false).ret = true ∧
    (OutputManager.set [{ id := 3, pin := 12, flags := 0, active := false },
        { id := 7, pin := 13, flags := 6, active := true }] 5 true).ret = false :=
  ⟨by decide,
    (set_frame [{ id := 3, pin := 12, flags := 0, active := false },
        { id := 7, pin := 13, flags := 6, active := true }] 7 false (by decide)).2.1.trans
      (by decide),
    by decide, by decide⟩

/-- C22: for every registry and every clock reading, a decay sweep keeps the number of
entries and the rawId (and internal id) at every position, leaves every entry that
was inactive exactly as it was (value and lastUpdate included), and an entry that
was inactive is inactive after it. -/
theorem decaySweep_frame (CONFIG_REMOTE_SENSORS_DECAY micros : Nat)
    (R : List RemoteSensor) :
    (RemoteSensorManager.decaySweep CONFIG_REMOTE_SENSORS_DECAY micros R).length = R.length ∧
    (RemoteSensorManager.decaySweep CONFIG_REMOTE_SENSORS_DECAY micros R).map
      RemoteSensor.rawID = R.map RemoteSensor.rawID ∧
    (∀ (i : Nat) (s : RemoteSensor), R[i]? = some s →
      ∃ t, (RemoteSensorManager.decaySweep CONFIG_REMOTE_SENSORS_DECAY micros R)[i]? = some t ∧
        t.rawID = s.rawID ∧ t.id = s.id ∧
        (s.active = false → t = s) ∧ (s.active = false → t.active = false)) := by
  refine ⟨by simp [RemoteSensorManager.decaySweep], ?_, ?_⟩
  · simp [RemoteSensorManager.decaySweep, List.map_map, Function.comp_def,
      RemoteSensor.check_rawID_id]
  · intro i s hs
    refine ⟨s.check CONFIG_REMOTE_SENSORS_DECAY micros, ?_,
      (RemoteSensor.check_rawID_id _ _ s).1, (RemoteSensor.check_rawID_id _ _ s).2, ?_, ?_⟩
    · simp [RemoteSensorManager.decaySweep, hs]
    · intro hinactive
      simp [RemoteSensor.check, hinactive]
    · intro hinactive
      simp [RemoteSensor.check, hinactive]

/-- C22 on a registry of an expired active sensor and an inactive one (window 1000 ms,
sweep at 9000 ms): the first is switched off, the second is untouched. -/
theorem decaySweep_frame_witness :
    RemoteSensorManager.decaySweep 1000 9000000
        [{ id := 105, rawID := 5, value := 1, active := true, lastUpdate := 5 },
          { id := 107, rawID := 7, value := 0, active := false, lastUpdate := 6 }] =
      [{ id := 105, rawID := 5, value := 0, active := false, lastUpdate := 9000 },
        { id := 107, rawID := 7, value := 0, active := false, lastUpdate := 6 }] ∧
    (RemoteSensorManager.decaySweep 1000 9000000
        [{ id := 105, rawID := 5, value := 1, active := true, lastUpdate := 5 },
          { id := 107, rawID := 7, value := 0, active := false, lastUpdate := 6 }]).length = 2 :=
  ⟨by decide,
    (decaySweep_frame 1000 9000000
        [{ id := 105, rawID := 5, value := 1, active := true, lastUpdate := 5 },
          { id := 107, rawID := 7, value := 0, active := false, lastUpdate := 6 }]).1⟩

/-! ## The toggle command -/

theorem getOutputPos_eq_none_iff (R : List Output) (id : Nat) :
    getOutputPos R id = none ↔ ∀ o ∈ R, o.id ≠ id := by
  induction R with
  | nil => simp [getOutputPos]
  | cons a rest ih =>
    by_cases ha : a.id = id
    · simp [getOutputPos, ha]
    · simp [getOutputPos, ha, ih]

theorem toggle_of_getOutputPos (R : List Output) (id pos : Nat)
    (h : getOutputPos R id = some pos) :
    ∃ o, R[pos]? = some o ∧ o.id = id ∧
      (toggle R id).outputs = R.set pos (o.set (!o.active) SET_ANNOUNCE_DEFAULT).1 ∧
      (toggle R id).effects = (o.set (!o.active) SET_ANNOUNCE_DEFAULT).2 := by
  induction R generalizing pos with
  | nil => simp [getOutputPos] at h
  | cons a rest ih =>
    by_cases ha : a.id = id
    · simp only [getOutputPos, ha, if_true, Option.some.injEq] at h
      subst h
      exact ⟨a, by simp, ha, by simp [toggle, ha], by simp [toggle, ha]⟩
    · simp only [getOutputPos, ha, if_false, Option.map_eq_some'] at h
      obtain ⟨p, hp, rfl⟩ := h
      obtain ⟨o, ho, hoid, hout, hfx⟩ := ih p hp
      exact ⟨o, by simpa using ho, hoid, by simp [toggle, ha, hout], by simp [toggle, ha, hfx]⟩

/-- C23: `OutputExCommandAdapter::process` broadcasts `<X>` and leaves the registry as
it was for an empty argument list and for a first token that names an id no Output
has; for a first token that names the id of an Output it broadcasts no `<X>` and
leaves the registry, and the trace, that `OutputManager::toggle(id)` produces. -/
theorem processEx_refines_toggle (R : List Output) :
    OutputExCommandAdapter.process R [] =
      some { ret := (), outputs := R, effects := [Effect.broadcast "<X>"] } ∧
    (∀ (a0 : String) (rest : List String) (n : Int), stoi a0 = some n →
      (∀ o ∈ R, o.id ≠ toUInt16 n) →
      OutputExCommandAdapter.process R (a0 :: rest) =
        some { ret := (), outputs := R, effects := [Effect.broadcast "<X>"] }) ∧
    (∀ (a0 : String) (rest : List String) (n : Int), stoi a0 = some n →
      (∃ o ∈ R, o.id = toUInt16 n) →
      OutputExCommandAdapter.process R (a0 :: rest) =
        some { ret := (), outputs := (toggle R (toUInt16 n)).outputs,
               effects := (toggle R (toUInt16 n)).effects } ∧
      "<X>" ∉ broadcasts (toggle R (toUInt16 n)).effects) := by
  refine ⟨by simp [OutputExCommandAdapter.process, COMMAND_FAILED_RESPONSE], ?_, ?_⟩
  · intro a0 rest n hn habs
    have hpos := (getOutputPos_eq_none_iff R (toUInt16 n)).2 habs
    simp [OutputExCommandAdapter.process, hn, hpos, COMMAND_FAILED_RESPONSE]
  · intro a0 rest n hn hex
    cases hpos : getOutputPos R (toUInt16 n) with
    | none =>
      obtain ⟨o, ho, hoid⟩ := hex
      exact absurd hoid ((getOutputPos_eq_none_iff R (toUInt16 n)).1 hpos o ho)
    | some pos =>
      obtain ⟨o, ho, _, hout, hfx⟩ := toggle_of_getOutputPos R (toUInt16 n) pos hpos
      refine ⟨?_, ?_⟩
      · simp [OutputExCommandAdapter.process, hn, hpos, ho, hout, hfx]
      · rw [hfx]
        exact Output.set_no_failed o _ _

/-- C23 on the registry holding Output 5 (inactive): the command `[5]` toggles it, the
command `[6]` and the empty command fail. -/
theorem processEx_refines_toggle_witness :
    OutputExCommandAdapter.process [{ id := 5, pin := 12, flags := 0, active := false }]
        ["5"] =
      some { ret := (), outputs := [{ id := 5, pin := 12, flags := 0, active := true }],
             effects := [Effect.digitalWrite 12 true, Effect.broadcast "<Y 5 0>"] } ∧
    OutputExCommandAdapter.process [{ id := 5, pin := 12, flags := 0, active := false }]
        ["6"] =
      some { ret := (), outputs := [{ id := 5, pin := 12, flags := 0, active := false }],
             effects := [Effect.broadcast "<X>"] } ∧
    OutputExCommandAdapter.process [{ id := 5, pin := 12, flags := 0, active := false }] [] =
      some { ret := (), outputs := [{ id := 5, pin := 12, flags := 0, active := false }],
             effects := [Effect.broadcast "<X>"] } :=
  ⟨by decide,
    (processEx_refines_toggle [{ id := 5, pin := 12, flags := 0, active := false }]).2.1
      "6" [] 6 (by decide) (by decide),
    by decide⟩

/-! ## Insertion order and idempotence of `createOrUpdate` -/

theorem updateExisting_map (R : List Output) (id pin flags : Nat)
    (hids : (R.map Output.id).Nodup) (hmem : ∃ o ∈ R, o.id = id) :
    ∃ r, updateExisting R id pin flags = some r ∧
      r.1 = R.map (fun o => if o.id = id then
        { id := o.id, pin := pin, flags := flags,
          active := flags.testBit 1 && flags.testBit 2 } else o) := by
  induction R with
  | nil =>
    obtain ⟨o, ho, _⟩ := hmem
    cases ho
  | cons a rest ih =>
    by_cases ha : a.id = id
    · have hrest := absent_of_nodup_cons a rest id hids ha
      refine ⟨((a.update pin flags).1 :: rest, (a.update pin flags).2),
        by simp only [updateExisting, ha, if_true], ?_⟩
      simp only [List.map_cons, ha, if_true, Output.update_fst]
      rw [map_if_id_of_absent rest id _ hrest]
    · have hmem2 : ∃ o ∈ rest, o.id = id := by
        obtain ⟨o, ho, hoid⟩ := hmem
        rcases List.mem_cons.1 ho with h | h
        · subst h; exact absurd hoid ha
        · exact ⟨o, h, hoid⟩
      simp only [List.map_cons, List.nodup_cons] at hids
      obtain ⟨r, hr, hmap⟩ := ih hids.2 hmem2
      exact ⟨(a :: r.1, r.2), by simp [updateExisting, ha, hr], by simp [ha, hmap]⟩

/-- C24: for every registry with pairwise distinct ids, `createOrUpdate` with an id no
Output has and a pin that is not restricted leaves the old registry followed by the
new Output; with an id some Output has it leaves the old registry with that one
Output replaced in place by the Output of the same id with the new pin and flags, so
the sequence of ids is unchanged. -/
theorem createOrUpdate_insertion_order (is_restricted_pin : Int → Bool) (R : List Output)
    (id pin flags : Nat) (hids : (R.map Output.id).Nodup) :
    ((∀ o ∈ R, o.id ≠ id) → is_restricted_pin (toInt8 pin) = false →
      (createOrUpdate is_restricted_pin R id pin flags).outputs =
        R ++ [{ id := id, pin := pin, flags := flags,
                active := flags.testBit 1 && flags.testBit 2 }]) ∧
    ((∃ o ∈ R, o.id = id) →
      (createOrUpdate is_restricted_pin R id pin flags).outputs =
        R.map (fun o => if o.id = id then
          { id := o.id, pin := pin, flags := flags,
            active := flags.testBit 1 && flags.testBit 2 } else o) ∧
      (createOrUpdate is_restricted_pin R id pin flags).outputs.map Output.id =
        R.map Output.id) := by
  constructor
  · intro habs hpin
    have hnone := (updateExisting_eq_none_iff R id pin flags).2
      ((getOutput_eq_none_iff R id).2 habs)
    simp [createOrUpdate, hnone, hpin, Output.create_fst]
  · intro hmem
    obtain ⟨r, hr, hmap⟩ := updateExisting_map R id pin flags hids hmem
    have hout : (createOrUpdate is_restricted_pin R id pin flags).outputs = r.1 := by
      simp [createOrUpdate, hr]
    refine ⟨by rw [hout, hmap], ?_⟩
    rw [hout]
    exact updateExisting_ids R id pin flags r hr

/-- C24 on the registry holding Outputs 3 and 7: `createOrUpdate(9, 14, 6)` appends
Output 9, `createOrUpdate(3, 15, 2)` replaces Output 3 in place. -/
theorem createOrUpdate_insertion_order_witness :
    (([{ id := 3, pin := 12, flags := 0, active := true },
        { id := 7, pin := 13, flags := 1, active := true }] : List Output).map
      Output.id).Nodup ∧
    (createOrUpdate (fun _ => false)
        [{ id := 3, pin := 12, flags := 0, active := true },
          { id := 7, pin := 13, flags := 1, active := true }] 9 14 6).outputs =
      [{ id := 3, pin := 12, flags := 0, active := true },
        { id := 7, pin := 13, flags := 1, active := true },
        { id := 9, pin := 14, flags := 6, active := true }] ∧
    (createOrUpdate (fun _ => false)
        [{ id := 3, pin := 12, flags := 0, active := true },
          { id := 7, pin := 13, flags := 1, active := true }] 3 15 2).outputs =
      [{ id := 3, pin := 15, flags := 2, active := false },
        { id := 7, pin := 13, flags := 1, active := true }] :=
  ⟨by decide,
    ((createOrUpdate_insertion_order (fun _ => false)
        [{ id := 3, pin := 12, flags := 0, active := true },
          { id := 7, pin := 13, flags := 1, active := true }] 9 14 6 (by decide)).1
      (by decide) rfl).trans (by decide),
    by decide⟩

theorem updateExisting_again (R : List Output) (id pin flags : Nat)
    (r : List Output × List Effect) (h : updateExisting R id pin flags = some r) :
    ∃ r2, updateExisting r.1 id pin flags = some r2 ∧ r2.1 = r.1 := by
  induction R generalizing r with
  | nil => simp [updateExisting] at h
  | cons a rest ih =>
    by_cases ha : a.id = id
    · simp only [updateExisting, ha, if_true, Option.some.injEq] at h
      subst h
      refine ⟨(((a.update pin flags).1.update pin flags).1 :: rest,
        ((a.update pin flags).1.update pin flags).2),
        by simp [updateExisting, Output.update_fst, ha], ?_⟩
      simp [Output.update_fst]
    · simp only [updateExisting, ha, if_false, Option.map_eq_some'] at h
      obtain ⟨r0, hr0, rfl⟩ := h
      obtain ⟨r2, hr2, heq⟩ := ih r0 hr0
      exact ⟨(a :: r2.1, r2.2), by simp [updateExisting, ha, hr2], by simp [heq]⟩

theorem updateExisting_append_new (R : List Output) (id pin flags : Nat) (o : Output)
    (hnone : updateExisting R id pin flags = none) (hid : o.id = id) :
    updateExisting (R ++ [o]) id pin flags =
      some (R ++ [(o.update pin flags).1], (o.update pin flags).2) := by
  induction R with
  | nil => simp [updateExisting, hid]
  | cons a rest ih =>
    by_cases ha : a.id = id
    · simp [updateExisting, ha] at hnone
    · simp only [updateExisting, ha, if_false, Option.map_eq_none'] at hnone
      simp [updateExisting, ha, ih hnone]

/-- C25: for every registry and every `(id, pin, flags)`, a second
`createOrUpdate(id, pin, flags)` returns what the first returned and leaves the
registry the first left; and `Output::update(pin, flags)` on an Output in any state
yields the pin, flags and active value of the Output that the constructor
`Output(id, pin, flags)` builds (the whole Output, when it has that id). -/
theorem createOrUpdate_idempotent (is_restricted_pin : Int → Bool) (R : List Output)
    (id pin flags : Nat) :
    (createOrUpdate is_restricted_pin
        (createOrUpdate is_restricted_pin R id pin flags).outputs id pin flags).outputs =
      (createOrUpdate is_restricted_pin R id pin flags).outputs ∧
    (createOrUpdate is_restricted_pin
        (createOrUpdate is_restricted_pin R id pin flags).outputs id pin flags).ret =
      (createOrUpdate is_restricted_pin R id pin flags).ret ∧
    (∀ o : Output,
      (o.update pin flags).1.pin = (Output.create id pin flags).1.pin ∧
      (o.update pin flags).1.flags = (Output.create id pin flags).1.flags ∧
      (o.update pin flags).1.active = (Output.create id pin flags).1.active ∧
      (o.id = id → (o.update pin flags).1 = (Output.create id pin flags).1)) := by
  refine ⟨?_, ?_, ?_⟩
  · cases hu : updateExisting R id pin flags with
    | some r =>
      obtain ⟨r2, hr2, heq⟩ := updateExisting_again R id pin flags r hu
      simp [createOrUpdate, hu, hr2, heq]
    | none =>
      cases hp : is_restricted_pin (toInt8 pin) with
      | true => simp [createOrUpdate, hu, hp]
      | false =>
        have happ := updateExisting_append_new R id pin flags (Output.create id pin flags).1 hu
          (by simp [Output.create_fst])
        simp only [Output.create_fst, Output.update_fst] at happ
        simp [createOrUpdate, hu, hp, happ, Output.create_fst]
  · cases hu : updateExisting R id pin flags with
    | some r =>
      obtain ⟨r2, hr2, _⟩ := updateExisting_again R id pin flags r hu
      simp [createOrUpdate, hu, hr2]
    | none =>
      cases hp : is_restricted_pin (toInt8 pin) with
      | true => simp [createOrUpdate, hu, hp]
      | false =>
        have happ := updateExisting_append_new R id pin flags (Output.create id pin flags).1 hu
          (by simp [Output.create_fst])
        simp only [Output.create_fst, Output.update_fst] at happ
        simp [createOrUpdate, hu, hp, happ, Output.create_fst]
  · intro o
    refine ⟨by simp [Output.update_fst, Output.create_fst],
      by simp [Output.update_fst, Output.create_fst],
      by simp [Output.update_fst, Output.create_fst], ?_⟩
    intro hid
    simp [Output.update_fst, Output.create_fst, hid]

/-- C25 on the registry holding the active Output 3, for `(3, 15, 2)` (an update), for
the new Output `(9, 14, 6)` and for the new id 8 on the restricted pin 6. -/
theorem createOrUpdate_idempotent_witness :
    (createOrUpdate (fun p => decide (p = 6))
        (createOrUpdate (fun p => decide (p = 6))
          [{ id := 3, pin := 12, flags := 0, active := true }] 3 15 2).outputs 3 15 2).outputs =
      [{ id := 3, pin := 15, flags := 2, active := false }] ∧
    (createOrUpdate (fun p => decide (p = 6))
        (createOrUpdate (fun p => decide (p = 6))
          [{ id := 3, pin := 12, flags := 0, active := true }] 9 14 6).outputs 9 14 6).outputs =
      (createOrUpdate (fun p => decide (p = 6))
        [{ id := 3, pin := 12, flags := 0, active := true }] 9 14 6).outputs ∧
    (createOrUpdate (fun p => decide (p = 6))
        (createOrUpdate (fun p => decide (p = 6))
          [{ id := 3, pin := 12, flags := 0, active := true }] 8 6 0).outputs 8 6 0).ret =
      false :=
  ⟨by decide,
    (createOrUpdate_idempotent (fun p => decide (p = 6))
        [{ id := 3, pin := 12, flags := 0, active := true }] 9 14 6).1,
    by decide⟩

end ESP32CS
